import Mathlib

/-!
Shallow embedding of `pkg/sessions.go` from yet-another-cloudwatch-exporter:
the session/client cache (`sessionCache`), its topology builder
(`NewSessionCache`), the bulk operations `Refresh` and `Clear`, the per-key
accessors, and the per-service client builders.

Go maps are modelled as association lists (first-match lookup, overwrite-or-
append insert); mutation through `*clientCache` pointers becomes functional
update of the corresponding entry; a nil-map / nil-pointer dereference panic
in an accessor is modelled by the accessor returning `none`.  The
`*session.Session` handle is a `Session` value tagged with the serial number
of the `createAWSSession` call that produced it, and the cache carries
instrumentation counters (`sessionCalls`, `builderCalls`) counting those
construction calls.
-/

namespace Exporter

/-- Go `Role` from the exporter's config: an optional target role ARN and an
optional external id for the assume-role exchange ("" means absent). -/
structure Role where
  roleArn : String
  externalID : String
deriving DecidableEq, Repr

/-- The single underlying provider session handle (`*session.Session`).
`id` records which `createAWSSession` call produced it. -/
structure Session where
  id : Nat
deriving DecidableEq, Repr

/-- The credential source installed by `setSTSCreds` when a role ARN is
present: `stscreds.NewCredentials(sess, roleArn, setExternalID(externalID))`. -/
structure Creds where
  roleArn : String
  externalID : Option String
deriving DecidableEq, Repr

/-- The parts of `aws.Config` that the builders in sessions.go write. -/
structure AwsConfig where
  region : Option String := none
  maxRetries : Option Nat := none
  customRetryer : Bool := false
  endpoint : Option String := none
  logDebug : Bool := false
  stsRegionalEndpoint : Bool := false
  credsChainVerbose : Bool := false
  credentials : Option Creds := none
deriving DecidableEq, Repr

/-- The distinct API surfaces served by the cache. -/
inductive ServiceKind
  | sts
  | cloudwatch
  | tagging
  | asg
  | ec2
  | dms
  | apiGateway
deriving DecidableEq, Repr

/-- A constructed service client: which service it is for, which session
handle it captured, and the `aws.Config` it was built with. -/
structure Client where
  kind : ServiceKind
  sess : Option Session
  config : AwsConfig
deriving DecidableEq, Repr

/-- Go `setExternalID`: the assume-role provider's ExternalID is set only when
the id is nonempty. -/
def setExternalID (id : String) : Option String :=
  if id ≠ "" then some id else none

/-- Go `setSTSCreds`: when the role carries an ARN, wrap the config's
credentials in an assume-role provider for that ARN. -/
def setSTSCreds (_sess : Option Session) (config : AwsConfig) (role : Role) :
    AwsConfig :=
  if role.roleArn ≠ "" then
    { config with
      credentials :=
        some { roleArn := role.roleArn
               externalID := setExternalID role.externalID } }
  else config

/-- Go `createStsSession`. -/
def createStsSession (sess : Option Session) (role : Role) (region : String)
    (fips : Bool) (isDebugEnabled : Bool) : Client :=
  let config : AwsConfig := { maxRetries := some 5 }
  let config :=
    if region ≠ "" then
      { config with region := some region, stsRegionalEndpoint := true }
    else config
  let config :=
    if fips then
      { config with
        endpoint := some ("https://sts-fips." ++ region ++ ".amazonaws.com") }
    else config
  let config :=
    if isDebugEnabled then { config with logDebug := true } else config
  { kind := .sts, sess := sess, config := setSTSCreds sess config role }

/-- Go `createCloudwatchSession`. -/
def createCloudwatchSession (sess : Option Session) (region : String)
    (role : Role) (fips : Bool) (isDebugEnabled : Bool) : Client :=
  let config : AwsConfig := { region := some region, customRetryer := true }
  let config :=
    if fips then
      { config with
        endpoint :=
          some ("https://monitoring-fips." ++ region ++ ".amazonaws.com") }
    else config
  let config :=
    if isDebugEnabled then { config with logDebug := true } else config
  { kind := .cloudwatch, sess := sess, config := setSTSCreds sess config role }

/-- Go `createTagSession`: note it takes no fips flag and sets no endpoint
override. -/
def createTagSession (sess : Option Session) (region : String) (role : Role)
    (isDebugEnabled : Bool) : Client :=
  let config : AwsConfig :=
    { region := some region, maxRetries := some 5, credsChainVerbose := true }
  let config :=
    if isDebugEnabled then { config with logDebug := true } else config
  { kind := .tagging, sess := sess, config := setSTSCreds sess config role }

/-- Go `createASGSession`: note it takes no fips flag and sets no endpoint
override. -/
def createASGSession (sess : Option Session) (region : String) (role : Role)
    (isDebugEnabled : Bool) : Client :=
  let config : AwsConfig := { region := some region, maxRetries := some 5 }
  let config :=
    if isDebugEnabled then { config with logDebug := true } else config
  { kind := .asg, sess := sess, config := setSTSCreds sess config role }

/-- Go `createEC2Session`. -/
def createEC2Session (sess : Option Session) (region : String) (role : Role)
    (fips : Bool) (isDebugEnabled : Bool) : Client :=
  let config : AwsConfig := { region := some region, maxRetries := some 10 }
  let config :=
    if fips then
      { config with
        endpoint := some ("https://ec2-fips." ++ region ++ ".amazonaws.com") }
    else config
  let config :=
    if isDebugEnabled then { config with logDebug := true } else config
  { kind := .ec2, sess := sess, config := setSTSCreds sess config role }

/-- Go `createDMSSession`. -/
def createDMSSession (sess : Option Session) (region : String) (role : Role)
    (fips : Bool) (isDebugEnabled : Bool) : Client :=
  let config : AwsConfig := { region := some region, maxRetries := some 5 }
  let config :=
    if fips then
      { config with
        endpoint := some ("https://dms-fips." ++ region ++ ".amazonaws.com") }
    else config
  let config :=
    if isDebugEnabled then { config with logDebug := true } else config
  { kind := .dms, sess := sess, config := setSTSCreds sess config role }

/-- Go `createAPIGatewaySession`. -/
def createAPIGatewaySession (sess : Option Session) (region : String)
    (role : Role) (fips : Bool) (isDebugEnabled : Bool) : Client :=
  let config : AwsConfig := { region := some region, maxRetries := some 5 }
  let config :=
    if fips then
      { config with
        endpoint :=
          some ("https://apigateway-fips." ++ region ++ ".amazonaws.com") }
    else config
  let config :=
    if isDebugEnabled then { config with logDebug := true } else config
  { kind := .apiGateway, sess := sess, config := setSTSCreds sess config role }

/-! ### Association-list model of Go maps -/

/-- Map lookup: first matching key. -/
def lookupA {α β : Type} [DecidableEq α] : List (α × β) → α → Option β
  | [], _ => none
  | (k, v) :: rest, k' => if k' = k then some v else lookupA rest k'

/-- Map insert: overwrite the first occurrence, or append. -/
def insertA {α β : Type} [DecidableEq α] :
    List (α × β) → α → β → List (α × β)
  | [], k, v => [(k, v)]
  | (k0, v0) :: rest, k, v =>
      if k0 = k then (k0, v) :: rest else (k0, v0) :: insertA rest k v

/-- In-place update of every value (keys untouched), as a Go loop over a map
performs. -/
def mapValues {α β γ : Type} (f : α → β → γ) (l : List (α × β)) :
    List (α × γ) :=
  l.map (fun p => (p.1, f p.1 p.2))

theorem lookupA_insertA {α β : Type} [DecidableEq α] (l : List (α × β))
    (k : α) (v : β) (k' : α) :
    lookupA (insertA l k v) k' = if k' = k then some v else lookupA l k' := by
  induction l with
  | nil => simp [insertA, lookupA]
  | cons p rest ih =>
      obtain ⟨k0, v0⟩ := p
      by_cases h0 : k0 = k
      · subst h0
        by_cases h1 : k' = k0 <;> simp [insertA, lookupA, h1]
      · by_cases h1 : k' = k0
        · subst h1
          simp [insertA, lookupA, h0, Ne.symm h0]
        · simp [insertA, lookupA, h0, h1, ih]

theorem lookupA_mapValues {α β γ : Type} [DecidableEq α] (f : α → β → γ)
    (l : List (α × β)) (k : α) :
    lookupA (mapValues f l) k = (lookupA l k).map (f k) := by
  induction l with
  | nil => simp [mapValues, lookupA]
  | cons p rest ih =>
      by_cases h : k = p.1
      · simp [mapValues, lookupA, h]
      · simp only [mapValues, List.map] at ih ⊢
        simp [lookupA, h, ih]

theorem isSome_lookupA_insertA {α β : Type} [DecidableEq α]
    (l : List (α × β)) (k : α) (v : β) (k' : α) :
    (lookupA (insertA l k v) k').isSome =
      ((lookupA l k').isSome || decide (k' = k)) := by
  rw [lookupA_insertA]
  by_cases h : k' = k <;> simp [h]

/-! ### Cache state -/

/-- Go `clientCache`: the per-(role, region) entry, one slot per regional
service kind plus the static-only marker. -/
structure ClientCache where
  onlyStatic : Bool := false
  cloudwatch : Option Client := none
  tagging : Option Client := none
  asg : Option Client := none
  ec2 : Option Client := none
  dms : Option Client := none
  apiGateway : Option Client := none
deriving DecidableEq, Repr

/-- The inner `map[string]*clientCache`. -/
def RegionMap : Type := List (String × ClientCache)

/-- Go `sessionCache`.  The Go `logger` is used only through
`logger.IsDebugEnabled()`, modelled by the boolean `debug`.  `sessionCalls`
counts `createAWSSession` invocations and `builderCalls` counts per-service
client-builder invocations made through this cache. -/
structure SessionCache where
  stsRegion : String
  session : Option Session
  stscache : List (Role × Option Client)
  clients : List (Role × List (String × ClientCache))
  cleared : Bool
  refreshed : Bool
  fips : Bool
  debug : Bool
  sessionCalls : Nat
  builderCalls : Nat
deriving DecidableEq, Repr

/-- Double lookup `s.clients[role][region]`; a missing role row behaves like
a lookup in a nil map. -/
def lookup2 (clients : List (Role × List (String × ClientCache)))
    (role : Role) (region : String) : Option ClientCache :=
  match lookupA clients role with
  | some m => lookupA m region
  | none => none

/-- Write `clients[role][region] = e` (the role row is present whenever the
source performs this write). -/
def insert2 (clients : List (Role × List (String × ClientCache)))
    (role : Role) (region : String) (e : ClientCache) :
    List (Role × List (String × ClientCache)) :=
  mapValues (fun r m => if r = role then insertA m region e else m) clients

/-! ### Topology builder (`NewSessionCache`) -/

/-- A job: a set of roles and a set of regions (discovery and static jobs
carry the same shape as far as the cache is concerned). -/
structure Job where
  roles : List Role
  regions : List String
deriving DecidableEq, Repr

/-- The slice of `ScrapeConf` read by `NewSessionCache`. -/
structure ScrapeConf where
  stsRegion : String
  discoveryJobs : List Job
  staticJobs : List Job
deriving DecidableEq, Repr

/-- Go `if _, ok := stscache[role]; !ok { stscache[role] = nil }`. -/
def ensureStsRole (sts : List (Role × Option Client)) (role : Role) :
    List (Role × Option Client) :=
  if (lookupA sts role).isSome then sts else insertA sts role none

/-- Go `if _, ok := roleCache[role]; !ok { roleCache[role] = map[...]{} }`. -/
def ensureRoleRow (rc : List (Role × List (String × ClientCache)))
    (role : Role) : List (Role × List (String × ClientCache)) :=
  if (lookupA rc role).isSome then rc else insertA rc role []

/-- One discovery job's contribution to the two maps: every named role gets
an sts slot and a role row, and every (role, region) pair gets a fresh
(non-static) entry, overwriting unconditionally. -/
def discoveryStep
    (acc : List (Role × Option Client) ×
           List (Role × List (String × ClientCache))) (job : Job) :
    List (Role × Option Client) ×
    List (Role × List (String × ClientCache)) :=
  job.roles.foldl
    (fun acc role =>
      let sts := ensureStsRole acc.1 role
      let rc := ensureRoleRow acc.2 role
      let rc := job.regions.foldl
        (fun rc region => insert2 rc role region {}) rc
      (sts, rc))
    acc

/-- One static job's contribution: roles as above; a (role, region) entry is
written, marked static-only, only when the pair is not already present. -/
def staticStep
    (acc : List (Role × Option Client) ×
           List (Role × List (String × ClientCache))) (job : Job) :
    List (Role × Option Client) ×
    List (Role × List (String × ClientCache)) :=
  job.roles.foldl
    (fun acc role =>
      let sts := ensureStsRole acc.1 role
      let rc := ensureRoleRow acc.2 role
      let rc := job.regions.foldl
        (fun rc region =>
          if (lookup2 rc role region).isSome then rc
          else insert2 rc role region { onlyStatic := true }) rc
      (sts, rc))
    acc

/-- Go `NewSessionCache` (the `AWS_ENDPOINT_URL` resolver override only affects
the internals of `createAWSSession`, which no claim observes, so the
resolver is left out of the state). -/
def newSessionCache (config : ScrapeConf) (fips : Bool) (debug : Bool) :
    SessionCache :=
  let acc := config.discoveryJobs.foldl discoveryStep ([], [])
  let acc := config.staticJobs.foldl staticStep acc
  { stsRegion := config.stsRegion
    session := none
    stscache := acc.1
    clients := acc.2
    cleared := false
    refreshed := false
    fips := fips
    debug := debug
    sessionCalls := 0
    builderCalls := 0 }

/-! ### Bulk operations -/

/-- The slot reset `Clear` applies to one entry: every client slot nil, keys
and the `onlyStatic` marker untouched. -/
def wipeEntry (e : ClientCache) : ClientCache :=
  { e with
    cloudwatch := none, tagging := none, asg := none,
    ec2 := none, dms := none, apiGateway := none }

/-- Go `Clear`: reset every slot (keys kept, `onlyStatic` kept), then mark the
phase. -/
def clear (s : SessionCache) : SessionCache :=
  if s.cleared then s
  else
    { s with
      stscache := mapValues (fun _ _ => (none : Option Client)) s.stscache
      clients :=
        mapValues (fun _ m => mapValues (fun _ e => wipeEntry e) m) s.clients
      cleared := true
      refreshed := false }

/-- The rebuild `Refresh` performs on one (role, region) entry: always the
metrics client; the other five only when the entry is not static-only
(`continue` leaves their previous contents untouched). -/
def refreshEntry (sess : Session) (fips debug : Bool)
    (role : Role) (region : String) (e : ClientCache) : ClientCache :=
  let e := { e with
    cloudwatch := some (createCloudwatchSession (some sess) region role fips debug) }
  if e.onlyStatic then e
  else
    { e with
      tagging := some (createTagSession (some sess) region role debug)
      asg := some (createASGSession (some sess) region role debug)
      ec2 := some (createEC2Session (some sess) region role fips debug)
      dms := some (createDMSSession (some sess) region role fips debug)
      apiGateway := some (createAPIGatewaySession (some sess) region role fips debug) }

/-- Number of builder calls `Refresh` makes for one entry. -/
def refreshEntryCost (e : ClientCache) : Nat :=
  if e.onlyStatic then 1 else 6

/-- Number of builder calls a full (non-no-op) `Refresh` makes. -/
def refreshCost (s : SessionCache) : Nat :=
  s.stscache.length +
    s.clients.foldl
      (fun acc p =>
        acc + p.2.foldl (fun a q => a + refreshEntryCost q.2) 0) 0

/-- The session handle a non-no-op `Refresh` proceeds with: the existing one
if present, else a fresh `createAWSSession` result. -/
def refreshSession (s : SessionCache) : Session :=
  match s.session with
  | some x => x
  | none => { id := s.sessionCalls }

/-- The `createAWSSession` call counter after a non-no-op `Refresh`'s session
check. -/
def refreshSessionCalls (s : SessionCache) : Nat :=
  match s.session with
  | some _ => s.sessionCalls
  | none => s.sessionCalls + 1

/-- Go `Refresh`: no-op when already refreshed; otherwise create the session
handle if absent, rebuild every sts client and every entry, and mark the
phase. -/
def refresh (s : SessionCache) : SessionCache :=
  if s.refreshed then s
  else
    let sess := refreshSession s
    let sessionCalls := refreshSessionCalls s
    { s with
      session := some sess
      sessionCalls := sessionCalls
      stscache :=
        mapValues
          (fun role _ =>
            some (createStsSession (some sess) role s.stsRegion s.fips s.debug))
          s.stscache
      clients :=
        mapValues
          (fun role m =>
            mapValues (refreshEntry sess s.fips s.debug role) m)
          s.clients
      builderCalls := s.builderCalls + refreshCost s
      cleared := false
      refreshed := true }

/-! ### Per-key accessors

Each Go accessor returns the cached value when present and non-nil, and
otherwise writes a freshly built client into the slot and returns it.  For
the region-keyed accessors the write `s.clients[role][*region].field = ...`
dereferences a nil `*clientCache` (or writes into a nil inner map) when the
(role, region) key is absent, i.e. it panics: modelled by returning `none`.
`GetSTS` never panics: a missing role key is silently inserted. -/

/-- Go `GetSTS`. -/
def getSTS (s : SessionCache) (role : Role) : Client × SessionCache :=
  match lookupA s.stscache role with
  | some (some c) => (c, s)
  | _ =>
      let c := createStsSession s.session role s.stsRegion s.fips s.debug
      (c, { s with
            stscache := insertA s.stscache role (some c)
            builderCalls := s.builderCalls + 1 })

/-- Go `GetCloudwatch`. -/
def getCloudwatch (s : SessionCache) (region : String) (role : Role) :
    Option (Client × SessionCache) :=
  match lookup2 s.clients role region with
  | none => none
  | some entry =>
      match entry.cloudwatch with
      | some c => some (c, s)
      | none =>
          let c := createCloudwatchSession s.session region role s.fips s.debug
          some (c, { s with
                     clients :=
                       insert2 s.clients role region
                         { entry with cloudwatch := some c }
                     builderCalls := s.builderCalls + 1 })

/-- Go `GetTagging`.  Note the source passes `s.fips` where `createTagSession`
expects its `isDebugEnabled` argument. -/
def getTagging (s : SessionCache) (region : String) (role : Role) :
    Option (Client × SessionCache) :=
  match lookup2 s.clients role region with
  | none => none
  | some entry =>
      match entry.tagging with
      | some c => some (c, s)
      | none =>
          let c := createTagSession s.session region role s.fips
          some (c, { s with
                     clients :=
                       insert2 s.clients role region
                         { entry with tagging := some c }
                     builderCalls := s.builderCalls + 1 })

/-- Go `GetASG`.  Note the source passes `s.fips` where `createASGSession`
expects its `isDebugEnabled` argument. -/
def getASG (s : SessionCache) (region : String) (role : Role) :
    Option (Client × SessionCache) :=
  match lookup2 s.clients role region with
  | none => none
  | some entry =>
      match entry.asg with
      | some c => some (c, s)
      | none =>
          let c := createASGSession s.session region role s.fips
          some (c, { s with
                     clients :=
                       insert2 s.clients role region { entry with asg := some c }
                     builderCalls := s.builderCalls + 1 })

/-- Go `GetEC2`. -/
def getEC2 (s : SessionCache) (region : String) (role : Role) :
    Option (Client × SessionCache) :=
  match lookup2 s.clients role region with
  | none => none
  | some entry =>
      match entry.ec2 with
      | some c => some (c, s)
      | none =>
          let c := createEC2Session s.session region role s.fips s.debug
          some (c, { s with
                     clients :=
                       insert2 s.clients role region { entry with ec2 := some c }
                     builderCalls := s.builderCalls + 1 })

/-- Go `GetDMS`. -/
def getDMS (s : SessionCache) (region : String) (role : Role) :
    Option (Client × SessionCache) :=
  match lookup2 s.clients role region with
  | none => none
  | some entry =>
      match entry.dms with
      | some c => some (c, s)
      | none =>
          let c := createDMSSession s.session region role s.fips s.debug
          some (c, { s with
                     clients :=
                       insert2 s.clients role region { entry with dms := some c }
                     builderCalls := s.builderCalls + 1 })

/-- Go `GetAPIGateway`. -/
def getAPIGateway (s : SessionCache) (region : String) (role : Role) :
    Option (Client × SessionCache) :=
  match lookup2 s.clients role region with
  | none => none
  | some entry =>
      match entry.apiGateway with
      | some c => some (c, s)
      | none =>
          let c := createAPIGatewaySession s.session region role s.fips s.debug
          some (c, { s with
                     clients :=
                       insert2 s.clients role region
                         { entry with apiGateway := some c }
                     builderCalls := s.builderCalls + 1 })

/-! ### Operation traces -/

/-- One call on the `SessionCache` interface. -/
inductive Op
  | refresh
  | clear
  | getSTS (role : Role)
  | getCloudwatch (region : String) (role : Role)
  | getTagging (region : String) (role : Role)
  | getASG (region : String) (role : Role)
  | getEC2 (region : String) (role : Role)
  | getDMS (region : String) (role : Role)
  | getAPIGateway (region : String) (role : Role)
deriving DecidableEq, Repr

/-- The state after one call.  An accessor that panics aborts before any
write, so its state effect is the identity. -/
def step (s : SessionCache) : Op → SessionCache
  | .refresh => refresh s
  | .clear => clear s
  | .getSTS role => (getSTS s role).2
  | .getCloudwatch region role =>
      match getCloudwatch s region role with
      | some p => p.2
      | none => s
  | .getTagging region role =>
      match getTagging s region role with
      | some p => p.2
      | none => s
  | .getASG region role =>
      match getASG s region role with
      | some p => p.2
      | none => s
  | .getEC2 region role =>
      match getEC2 s region role with
      | some p => p.2
      | none => s
  | .getDMS region role =>
      match getDMS s region role with
      | some p => p.2
      | none => s
  | .getAPIGateway region role =>
      match getAPIGateway s region role with
      | some p => p.2
      | none => s

/-- The state after a sequence of calls. -/
def run (s : SessionCache) (ops : List Op) : SessionCache :=
  ops.foldl step s

theorem run_append (s : SessionCache) (l1 l2 : List Op) :
    run s (l1 ++ l2) = run (run s l1) l2 := by
  simp [run, List.foldl_append]

/-! ### Helper lemmas about the map operations -/

theorem lookup2_insert2 (c : List (Role × List (String × ClientCache)))
    (role : Role) (region : String) (e : ClientCache) (r : Role)
    (g : String) :
    lookup2 (insert2 c role region e) r g =
      if r = role ∧ g = region ∧ (lookupA c role).isSome = true then some e
      else lookup2 c r g := by
  unfold lookup2 insert2
  rw [lookupA_mapValues]
  by_cases hr : r = role
  · subst hr
    cases hc : lookupA c r with
    | none => simp
    | some m =>
        by_cases hg : g = region <;> simp [lookupA_insertA, hg]
  · cases hc : lookupA c r with
    | none => simp [hr]
    | some m => simp [hr]

theorem isSome_lookupA_insert2 (c : List (Role × List (String × ClientCache)))
    (role : Role) (region : String) (e : ClientCache) (r : Role) :
    (lookupA (insert2 c role region e) r).isSome =
      (lookupA c r).isSome := by
  unfold insert2
  rw [lookupA_mapValues]
  cases lookupA c r <;> simp

theorem lookup2_clear (s : SessionCache) (h : s.cleared = false) (r : Role)
    (g : String) :
    lookup2 (clear s).clients r g =
      (lookup2 s.clients r g).map wipeEntry := by
  have h2 : (clear s).clients =
      mapValues (fun _ m => mapValues (fun _ e => wipeEntry e) m) s.clients := by
    unfold clear
    rw [if_neg (by simp [h])]
  rw [h2]
  unfold lookup2
  rw [lookupA_mapValues]
  cases lookupA s.clients r <;> simp [lookupA_mapValues]

theorem lookup2_refresh (s : SessionCache) (h : s.refreshed = false)
    (r : Role) (g : String) :
    lookup2 (refresh s).clients r g =
      (lookup2 s.clients r g).map
        (refreshEntry (refreshSession s) s.fips s.debug r g) := by
  have h2 : (refresh s).clients =
      mapValues
        (fun role m =>
          mapValues (refreshEntry (refreshSession s) s.fips s.debug role) m)
        s.clients := by
    unfold refresh
    rw [if_neg (by simp [h])]
  rw [h2]
  unfold lookup2
  rw [lookupA_mapValues]
  cases lookupA s.clients r <;> simp [lookupA_mapValues]

theorem lookupA_stscache_clear (s : SessionCache) (h : s.cleared = false)
    (r : Role) :
    lookupA (clear s).stscache r =
      (lookupA s.stscache r).map (fun _ => none) := by
  have h2 : (clear s).stscache =
      mapValues (fun _ _ => (none : Option Client)) s.stscache := by
    unfold clear
    rw [if_neg (by simp [h])]
  rw [h2, lookupA_mapValues]

theorem refreshEntry_onlyStatic (sess : Session) (fips debug : Bool)
    (r : Role) (g : String) (e : ClientCache) :
    (refreshEntry sess fips debug r g e).onlyStatic = e.onlyStatic := by
  unfold refreshEntry
  by_cases h : e.onlyStatic <;> simp [h]

theorem wipeEntry_onlyStatic (e : ClientCache) :
    (wipeEntry e).onlyStatic = e.onlyStatic := rfl

/-! ### Case lemmas for the accessors -/

theorem getSTS_cached (s : SessionCache) (role : Role) (c : Client)
    (h : lookupA s.stscache role = some (some c)) :
    getSTS s role = (c, s) := by
  unfold getSTS
  rw [h]

theorem getSTS_build_nil (s : SessionCache) (role : Role)
    (h : lookupA s.stscache role = some none) :
    getSTS s role =
      (createStsSession s.session role s.stsRegion s.fips s.debug,
       { s with
         stscache :=
           insertA s.stscache role
             (some (createStsSession s.session role s.stsRegion s.fips s.debug))
         builderCalls := s.builderCalls + 1 }) := by
  unfold getSTS
  rw [h]

theorem getSTS_build_missing (s : SessionCache) (role : Role)
    (h : lookupA s.stscache role = none) :
    getSTS s role =
      (createStsSession s.session role s.stsRegion s.fips s.debug,
       { s with
         stscache :=
           insertA s.stscache role
             (some (createStsSession s.session role s.stsRegion s.fips s.debug))
         builderCalls := s.builderCalls + 1 }) := by
  unfold getSTS
  rw [h]

theorem getCloudwatch_missing (s : SessionCache) (region : String)
    (role : Role) (h : lookup2 s.clients role region = none) :
    getCloudwatch s region role = none := by
  unfold getCloudwatch
  rw [h]

theorem getCloudwatch_cached (s : SessionCache) (region : String)
    (role : Role) (entry : ClientCache) (c : Client)
    (h : lookup2 s.clients role region = some entry)
    (hc : entry.cloudwatch = some c) :
    getCloudwatch s region role = some (c, s) := by
  unfold getCloudwatch
  rw [h]
  simp [hc]

theorem getCloudwatch_build (s : SessionCache) (region : String) (role : Role)
    (entry : ClientCache) (h : lookup2 s.clients role region = some entry)
    (hc : entry.cloudwatch = none) :
    getCloudwatch s region role =
      some (createCloudwatchSession s.session region role s.fips s.debug,
        { s with
          clients :=
            insert2 s.clients role region
              { entry with
                cloudwatch :=
                  some (createCloudwatchSession s.session region role s.fips
                    s.debug) }
          builderCalls := s.builderCalls + 1 }) := by
  unfold getCloudwatch
  rw [h]
  simp [hc]

theorem getTagging_missing (s : SessionCache) (region : String) (role : Role)
    (h : lookup2 s.clients role region = none) :
    getTagging s region role = none := by
  unfold getTagging
  rw [h]

theorem getTagging_cached (s : SessionCache) (region : String) (role : Role)
    (entry : ClientCache) (c : Client)
    (h : lookup2 s.clients role region = some entry)
    (hc : entry.tagging = some c) :
    getTagging s region role = some (c, s) := by
  unfold getTagging
  rw [h]
  simp [hc]

theorem getTagging_build (s : SessionCache) (region : String) (role : Role)
    (entry : ClientCache) (h : lookup2 s.clients role region = some entry)
    (hc : entry.tagging = none) :
    getTagging s region role =
      some (createTagSession s.session region role s.fips,
        { s with
          clients :=
            insert2 s.clients role region
              { entry with
                tagging := some (createTagSession s.session region role s.fips) }
          builderCalls := s.builderCalls + 1 }) := by
  unfold getTagging
  rw [h]
  simp [hc]

theorem getASG_missing (s : SessionCache) (region : String) (role : Role)
    (h : lookup2 s.clients role region = none) :
    getASG s region role = none := by
  unfold getASG
  rw [h]

theorem getASG_cached (s : SessionCache) (region : String) (role : Role)
    (entry : ClientCache) (c : Client)
    (h : lookup2 s.clients role region = some entry)
    (hc : entry.asg = some c) :
    getASG s region role = some (c, s) := by
  unfold getASG
  rw [h]
  simp [hc]

theorem getASG_build (s : SessionCache) (region : String) (role : Role)
    (entry : ClientCache) (h : lookup2 s.clients role region = some entry)
    (hc : entry.asg = none) :
    getASG s region role =
      some (createASGSession s.session region role s.fips,
        { s with
          clients :=
            insert2 s.clients role region
              { entry with
                asg := some (createASGSession s.session region role s.fips) }
          builderCalls := s.builderCalls + 1 }) := by
  unfold getASG
  rw [h]
  simp [hc]

theorem getEC2_missing (s : SessionCache) (region : String) (role : Role)
    (h : lookup2 s.clients role region = none) :
    getEC2 s region role = none := by
  unfold getEC2
  rw [h]

theorem getEC2_cached (s : SessionCache) (region : String) (role : Role)
    (entry : ClientCache) (c : Client)
    (h : lookup2 s.clients role region = some entry)
    (hc : entry.ec2 = some c) :
    getEC2 s region role = some (c, s) := by
  unfold getEC2
  rw [h]
  simp [hc]

theorem getEC2_build (s : SessionCache) (region : String) (role : Role)
    (entry : ClientCache) (h : lookup2 s.clients role region = some entry)
    (hc : entry.ec2 = none) :
    getEC2 s region role =
      some (createEC2Session s.session region role s.fips s.debug,
        { s with
          clients :=
            insert2 s.clients role region
              { entry with
                ec2 := some (createEC2Session s.session region role s.fips
                  s.debug) }
          builderCalls := s.builderCalls + 1 }) := by
  unfold getEC2
  rw [h]
  simp [hc]

theorem getDMS_missing (s : SessionCache) (region : String) (role : Role)
    (h : lookup2 s.clients role region = none) :
    getDMS s region role = none := by
  unfold getDMS
  rw [h]

theorem getDMS_cached (s : SessionCache) (region : String) (role : Role)
    (entry : ClientCache) (c : Client)
    (h : lookup2 s.clients role region = some entry)
    (hc : entry.dms = some c) :
    getDMS s region role = some (c, s) := by
  unfold getDMS
  rw [h]
  simp [hc]

theorem getDMS_build (s : SessionCache) (region : String) (role : Role)
    (entry : ClientCache) (h : lookup2 s.clients role region = some entry)
    (hc : entry.dms = none) :
    getDMS s region role =
      some (createDMSSession s.session region role s.fips s.debug,
        { s with
          clients :=
            insert2 s.clients role region
              { entry with
                dms := some (createDMSSession s.session region role s.fips
                  s.debug) }
          builderCalls := s.builderCalls + 1 }) := by
  unfold getDMS
  rw [h]
  simp [hc]

theorem getAPIGateway_missing (s : SessionCache) (region : String)
    (role : Role) (h : lookup2 s.clients role region = none) :
    getAPIGateway s region role = none := by
  unfold getAPIGateway
  rw [h]

theorem getAPIGateway_cached (s : SessionCache) (region : String)
    (role : Role) (entry : ClientCache) (c : Client)
    (h : lookup2 s.clients role region = some entry)
    (hc : entry.apiGateway = some c) :
    getAPIGateway s region role = some (c, s) := by
  unfold getAPIGateway
  rw [h]
  simp [hc]

theorem getAPIGateway_build (s : SessionCache) (region : String) (role : Role)
    (entry : ClientCache) (h : lookup2 s.clients role region = some entry)
    (hc : entry.apiGateway = none) :
    getAPIGateway s region role =
      some (createAPIGatewaySession s.session region role s.fips s.debug,
        { s with
          clients :=
            insert2 s.clients role region
              { entry with
                apiGateway :=
                  some (createAPIGatewaySession s.session region role s.fips
                    s.debug) }
          builderCalls := s.builderCalls + 1 }) := by
  unfold getAPIGateway
  rw [h]
  simp [hc]

/-! ### What each operation leaves untouched -/

/-- Whether an `Op` is one of the seven accessors. -/
def Op.isGet : Op → Bool
  | .refresh => false
  | .clear => false
  | _ => true

theorem refresh_of_refreshed (s : SessionCache) (h : s.refreshed = true) :
    refresh s = s := by
  unfold refresh
  rw [if_pos h]

theorem clear_of_cleared (s : SessionCache) (h : s.cleared = true) :
    clear s = s := by
  unfold clear
  rw [if_pos h]

theorem refresh_refreshed (s : SessionCache) :
    (refresh s).refreshed = true := by
  unfold refresh
  split
  · assumption
  · rfl

theorem clear_cleared (s : SessionCache) : (clear s).cleared = true := by
  unfold clear
  split
  · assumption
  · rfl

theorem refresh_flags (s : SessionCache) (h : s.refreshed = false) :
    (refresh s).cleared = false ∧ (refresh s).refreshed = true := by
  unfold refresh
  rw [if_neg (by simp [h])]
  exact ⟨rfl, rfl⟩

theorem clear_flags (s : SessionCache) (h : s.cleared = false) :
    (clear s).cleared = true ∧ (clear s).refreshed = false := by
  unfold clear
  rw [if_neg (by simp [h])]
  exact ⟨rfl, rfl⟩

theorem clear_session (s : SessionCache) :
    (clear s).session = s.session ∧
    (clear s).sessionCalls = s.sessionCalls ∧
    (clear s).builderCalls = s.builderCalls ∧
    (clear s).refreshed = false ∨ clear s = s := by
  by_cases h : s.cleared
  · right
    exact clear_of_cleared s h
  · left
    unfold clear
    rw [if_neg h]
    exact ⟨rfl, rfl, rfl, rfl⟩

/-- An accessor call never changes the phase flags, the session handle, the
session-construction counter, or the ambient configuration. -/
theorem step_get_core (s : SessionCache) (op : Op) (h : op.isGet = true) :
    (step s op).cleared = s.cleared ∧ (step s op).refreshed = s.refreshed ∧
    (step s op).session = s.session ∧
    (step s op).sessionCalls = s.sessionCalls ∧
    (step s op).stsRegion = s.stsRegion ∧ (step s op).fips = s.fips ∧
    (step s op).debug = s.debug := by
  cases op with
  | refresh => simp [Op.isGet] at h
  | clear => simp [Op.isGet] at h
  | getSTS role =>
      cases hm : lookupA s.stscache role with
      | none => simp [step, getSTS_build_missing s role hm]
      | some o =>
          cases o with
          | none => simp [step, getSTS_build_nil s role hm]
          | some c => simp [step, getSTS_cached s role c hm]
  | getCloudwatch region role =>
      cases hm : lookup2 s.clients role region with
      | none => simp [step, getCloudwatch_missing s region role hm]
      | some entry =>
          cases hc : entry.cloudwatch with
          | some c => simp [step, getCloudwatch_cached s region role entry c hm hc]
          | none => simp [step, getCloudwatch_build s region role entry hm hc]
  | getTagging region role =>
      cases hm : lookup2 s.clients role region with
      | none => simp [step, getTagging_missing s region role hm]
      | some entry =>
          cases hc : entry.tagging with
          | some c => simp [step, getTagging_cached s region role entry c hm hc]
          | none => simp [step, getTagging_build s region role entry hm hc]
  | getASG region role =>
      cases hm : lookup2 s.clients role region with
      | none => simp [step, getASG_missing s region role hm]
      | some entry =>
          cases hc : entry.asg with
          | some c => simp [step, getASG_cached s region role entry c hm hc]
          | none => simp [step, getASG_build s region role entry hm hc]
  | getEC2 region role =>
      cases hm : lookup2 s.clients role region with
      | none => simp [step, getEC2_missing s region role hm]
      | some entry =>
          cases hc : entry.ec2 with
          | some c => simp [step, getEC2_cached s region role entry c hm hc]
          | none => simp [step, getEC2_build s region role entry hm hc]
  | getDMS region role =>
      cases hm : lookup2 s.clients role region with
      | none => simp [step, getDMS_missing s region role hm]
      | some entry =>
          cases hc : entry.dms with
          | some c => simp [step, getDMS_cached s region role entry c hm hc]
          | none => simp [step, getDMS_build s region role entry hm hc]
  | getAPIGateway region role =>
      cases hm : lookup2 s.clients role region with
      | none => simp [step, getAPIGateway_missing s region role hm]
      | some entry =>
          cases hc : entry.apiGateway with
          | some c => simp [step, getAPIGateway_cached s region role entry c hm hc]
          | none => simp [step, getAPIGateway_build s region role entry hm hc]


/-! ### Concrete fixtures used by witnesses and counterexamples -/

/-- A role with an ARN, declared by the discovery job of `confX`. -/
def roleX : Role := { roleArn := "arn:aws:iam::123:role/X", externalID := "" }

/-- The empty role, declared by the static job of `confX`. -/
def roleY : Role := { roleArn := "", externalID := "" }

/-- A role declared by no job of `confX`. -/
def roleZ : Role := { roleArn := "arn:aws:iam::999:role/Z", externalID := "e" }

/-- One discovery job (roleX, us-east-1) and one static job
(roleY, eu-west-1). -/
def confX : ScrapeConf :=
  { stsRegion := "us-east-1"
    discoveryJobs := [{ roles := [roleX], regions := ["us-east-1"] }]
    staticJobs := [{ roles := [roleY], regions := ["eu-west-1"] }] }

/-- The cache built from `confX` with fips off and debug off. -/
def cacheX : SessionCache := newSessionCache confX false false

/-- The cache built from `confX` with fips on and debug off. -/
def cacheF : SessionCache := newSessionCache confX true false

/-! ### Claim theorems -/

/-- C6: calling Refresh when the refreshed flag is already true is a no-op —
it performs no builder calls and leaves the entire cache state unchanged —
and hence two consecutive Refresh calls with no intervening Clear perform no
additional builder or session-construction calls on the second call. -/
theorem refresh_noop_when_refreshed (s : SessionCache) :
    (s.refreshed = true →
      refresh s = s ∧ (refresh s).builderCalls = s.builderCalls ∧
      (refresh s).sessionCalls = s.sessionCalls) ∧
    refresh (refresh s) = refresh s := by
  constructor
  · intro h
    rw [refresh_of_refreshed s h]
    exact ⟨rfl, rfl, rfl⟩
  · exact refresh_of_refreshed (refresh s) (refresh_refreshed s)

/-- Witness for C6: on a concrete refreshed cache, the second Refresh is a
no-op. -/
theorem refresh_noop_witness :
    refresh (refresh cacheX) = refresh cacheX := by
  exact ((refresh_noop_when_refreshed (refresh cacheX)).1 (by decide)).1

/-- C7: Clear is idempotent; when the phase is not already cleared it sets
every sts slot and every per-kind client slot to empty, across all
(role, region) keys and without removing any key, ends with cleared = true
and refreshed = false, and afterwards every slot reads as empty. -/
theorem clear_spec (s : SessionCache) :
    clear (clear s) = clear s ∧
    (clear s).builderCalls = s.builderCalls ∧
    (s.cleared = true → clear s = s) ∧
    (s.cleared = false →
      (clear s).cleared = true ∧ (clear s).refreshed = false ∧
      (∀ r, lookupA (clear s).stscache r =
        (lookupA s.stscache r).map (fun _ => none)) ∧
      (∀ r g, lookup2 (clear s).clients r g =
        (lookup2 s.clients r g).map wipeEntry) ∧
      (∀ r g e, lookup2 (clear s).clients r g = some e →
        e.cloudwatch = none ∧ e.tagging = none ∧ e.asg = none ∧
        e.ec2 = none ∧ e.dms = none ∧ e.apiGateway = none)) := by
  refine ⟨clear_of_cleared (clear s) (clear_cleared s), ?_,
    clear_of_cleared s, ?_⟩
  · by_cases h : s.cleared
    · rw [clear_of_cleared s h]
    · unfold clear
      rw [if_neg h]
  · intro h
    refine ⟨(clear_flags s h).1, (clear_flags s h).2,
      fun r => lookupA_stscache_clear s h r,
      fun r g => lookup2_clear s h r g, ?_⟩
    intro r g e he
    rw [lookup2_clear s h r g] at he
    cases hl : lookup2 s.clients r g with
    | none => rw [hl] at he; simp at he
    | some e0 =>
        rw [hl] at he
        simp only [Option.map] at he
        cases he
        exact ⟨rfl, rfl, rfl, rfl, rfl, rfl⟩

/-- Witness for C7: clearing a concrete refreshed (hence populated,
non-cleared) cache empties its slots and a second Clear is a no-op. -/
theorem clear_spec_witness :
    clear (clear (refresh cacheX)) = clear (refresh cacheX) ∧
    (clear (refresh cacheX)).cleared = true ∧
    (clear (refresh cacheX)).refreshed = false := by
  refine ⟨(clear_spec (refresh cacheX)).1, ?_, ?_⟩
  · exact ((clear_spec (refresh cacheX)).2.2.2 (by decide)).1
  · exact ((clear_spec (refresh cacheX)).2.2.2 (by decide)).2.1

/-- The two phase flags are not simultaneously set. -/
def flagsOK (s : SessionCache) : Prop :=
  ¬(s.cleared = true ∧ s.refreshed = true)

theorem step_flagsOK (s : SessionCache) (op : Op) (h : flagsOK s) :
    flagsOK (step s op) := by
  cases hop : op.isGet with
  | true =>
      have hc := step_get_core s op hop
      intro hcontra
      rw [hc.1, hc.2.1] at hcontra
      exact h hcontra
  | false =>
      cases op with
      | refresh =>
          by_cases hr : s.refreshed
          · show flagsOK (refresh s)
            rw [refresh_of_refreshed s hr]
            exact h
          · have hf := refresh_flags s (by simpa using hr)
            intro hcontra
            have := hcontra.1
            rw [show (step s Op.refresh) = refresh s from rfl, hf.1] at this
            exact absurd this (by simp)
      | clear =>
          by_cases hc : s.cleared
          · show flagsOK (clear s)
            rw [clear_of_cleared s hc]
            exact h
          · have hf := clear_flags s (by simpa using hc)
            intro hcontra
            have := hcontra.2
            rw [show (step s Op.clear) = clear s from rfl, hf.2] at this
            exact absurd this (by simp)
      | getSTS role => simp [Op.isGet] at hop
      | getCloudwatch region role => simp [Op.isGet] at hop
      | getTagging region role => simp [Op.isGet] at hop
      | getASG region role => simp [Op.isGet] at hop
      | getEC2 region role => simp [Op.isGet] at hop
      | getDMS region role => simp [Op.isGet] at hop
      | getAPIGateway region role => simp [Op.isGet] at hop

theorem run_flagsOK (s : SessionCache) (ops : List Op) (h : flagsOK s) :
    flagsOK (run s ops) := by
  induction ops generalizing s with
  | nil => exact h
  | cons op rest ih =>
      have : run s (op :: rest) = run (step s op) rest := rfl
      rw [this]
      exact ih (step s op) (step_flagsOK s op h)

/-- C8: in every state reachable from construction, the cleared and
refreshed flags are never both true; construction leaves both false, a
Refresh ends with refreshed = true and cleared = false, and a Clear ends
with cleared = true and refreshed = false. -/
theorem phase_flags_exclusive (conf : ScrapeConf) (fips debug : Bool)
    (ops : List Op) :
    ¬((run (newSessionCache conf fips debug) ops).cleared = true ∧
      (run (newSessionCache conf fips debug) ops).refreshed = true) ∧
    (newSessionCache conf fips debug).cleared = false ∧
    (newSessionCache conf fips debug).refreshed = false ∧
    (run (newSessionCache conf fips debug) (ops ++ [Op.refresh])).refreshed =
      true ∧
    (run (newSessionCache conf fips debug) (ops ++ [Op.refresh])).cleared =
      false ∧
    (run (newSessionCache conf fips debug) (ops ++ [Op.clear])).cleared =
      true ∧
    (run (newSessionCache conf fips debug) (ops ++ [Op.clear])).refreshed =
      false := by
  have h0 : flagsOK (newSessionCache conf fips debug) := by
    intro hcontra
    exact absurd hcontra.1 (by simp [newSessionCache])
  have hrun : flagsOK (run (newSessionCache conf fips debug) ops) :=
    run_flagsOK _ ops h0
  set X := run (newSessionCache conf fips debug) ops with hX
  have hsteprf : run (newSessionCache conf fips debug) (ops ++ [Op.refresh]) =
      refresh X := by
    rw [run_append]
    rfl
  have hstepcl : run (newSessionCache conf fips debug) (ops ++ [Op.clear]) =
      clear X := by
    rw [run_append]
    rfl
  refine ⟨hrun, by simp [newSessionCache], by simp [newSessionCache],
    ?_, ?_, ?_, ?_⟩
  · rw [hsteprf]
    exact refresh_refreshed X
  · rw [hsteprf]
    by_cases hr : X.refreshed
    · rw [refresh_of_refreshed X hr]
      cases hc : X.cleared with
      | false => rfl
      | true => exact absurd ⟨hc, hr⟩ hrun
    · exact (refresh_flags X (by simpa using hr)).1
  · rw [hstepcl]
    exact clear_cleared X
  · rw [hstepcl]
    by_cases hc : X.cleared
    · rw [clear_of_cleared X hc]
      cases hr : X.refreshed with
      | false => rfl
      | true => exact absurd ⟨hc, hr⟩ hrun
    · exact (clear_flags X (by simpa using hc)).2

theorem refresh_session_some (s : SessionCache) (x : Session)
    (h : s.session = some x) :
    (refresh s).session = some x ∧
    (refresh s).sessionCalls = s.sessionCalls := by
  by_cases hr : s.refreshed
  · rw [refresh_of_refreshed s hr]
    exact ⟨h, rfl⟩
  · unfold refresh
    rw [if_neg hr]
    unfold refreshSession refreshSessionCalls
    rw [h]
    exact ⟨rfl, rfl⟩

theorem refresh_session_none (s : SessionCache) (h : s.session = none)
    (hr : s.refreshed = false) :
    (refresh s).session = some { id := s.sessionCalls } ∧
    (refresh s).sessionCalls = s.sessionCalls + 1 := by
  unfold refresh
  rw [if_neg (by simp [hr])]
  unfold refreshSession refreshSessionCalls
  rw [h]
  exact ⟨rfl, rfl⟩

theorem clear_preserves_session (s : SessionCache) (hr : s.refreshed = false) :
    (clear s).session = s.session ∧
    (clear s).sessionCalls = s.sessionCalls ∧
    (clear s).refreshed = false := by
  by_cases hc : s.cleared
  · rw [clear_of_cleared s hc]
    exact ⟨rfl, rfl, hr⟩
  · unfold clear
    rw [if_neg hc]
    exact ⟨rfl, rfl, rfl⟩

theorem run_session_stable (s : SessionCache) (ops : List Op) (x : Session)
    (h1 : s.session = some x) (h2 : s.sessionCalls = 1) :
    (run s ops).session = some x ∧ (run s ops).sessionCalls = 1 := by
  induction ops generalizing s with
  | nil => exact ⟨h1, h2⟩
  | cons op rest ih =>
      have hstep : run s (op :: rest) = run (step s op) rest := rfl
      rw [hstep]
      cases hop : op.isGet with
      | true =>
          have hc := step_get_core s op hop
          exact ih (step s op) (by rw [hc.2.2.1]; exact h1)
            (by rw [hc.2.2.2.1]; exact h2)
      | false =>
          cases op with
          | refresh =>
              have hf := refresh_session_some s x h1
              exact ih (refresh s) hf.1 (by rw [hf.2]; exact h2)
          | clear =>
              by_cases hcl : s.cleared
              · have : step s Op.clear = s := clear_of_cleared s hcl
                rw [this]
                exact ih s h1 h2
              · have : (clear s).session = s.session ∧
                    (clear s).sessionCalls = s.sessionCalls := by
                  unfold clear
                  rw [if_neg hcl]
                  exact ⟨rfl, rfl⟩
                exact ih (clear s) (by rw [this.1]; exact h1)
                  (by rw [this.2]; exact h2)
          | getSTS role => simp [Op.isGet] at hop
          | getCloudwatch region role => simp [Op.isGet] at hop
          | getTagging region role => simp [Op.isGet] at hop
          | getASG region role => simp [Op.isGet] at hop
          | getEC2 region role => simp [Op.isGet] at hop
          | getDMS region role => simp [Op.isGet] at hop
          | getAPIGateway region role => simp [Op.isGet] at hop

theorem run_session_fresh (s : SessionCache) (ops : List Op)
    (h1 : s.session = none) (h2 : s.sessionCalls = 0)
    (h3 : s.refreshed = false) :
    (run s ops).session =
      (if Op.refresh ∈ ops then some { id := 0 } else none) ∧
    (run s ops).sessionCalls = (if Op.refresh ∈ ops then 1 else 0) := by
  induction ops generalizing s with
  | nil => simpa [run] using ⟨h1, h2⟩
  | cons op rest ih =>
      have hstep : run s (op :: rest) = run (step s op) rest := rfl
      rw [hstep]
      cases op with
      | refresh =>
          have hf := refresh_session_none s h1 h3
          have := run_session_stable (refresh s) rest { id := 0 }
            (by rw [hf.1, h2]) (by rw [hf.2, h2])
          simpa [List.mem_cons] using this
      | clear =>
          have hp := clear_preserves_session s h3
          have hsc : (clear s).session = none := by rw [hp.1]; exact h1
          have hcc : (clear s).sessionCalls = 0 := by rw [hp.2.1]; exact h2
          have := ih (clear s) hsc hcc hp.2.2
          simpa [List.mem_cons] using this
      | getSTS role =>
          have hc := step_get_core s (Op.getSTS role) rfl
          have := ih (step s (Op.getSTS role)) (by rw [hc.2.2.1]; exact h1)
            (by rw [hc.2.2.2.1]; exact h2) (by rw [hc.2.1]; exact h3)
          simpa [List.mem_cons] using this
      | getCloudwatch region role =>
          have hc := step_get_core s (Op.getCloudwatch region role) rfl
          have := ih (step s (Op.getCloudwatch region role))
            (by rw [hc.2.2.1]; exact h1) (by rw [hc.2.2.2.1]; exact h2)
            (by rw [hc.2.1]; exact h3)
          simpa [List.mem_cons] using this
      | getTagging region role =>
          have hc := step_get_core s (Op.getTagging region role) rfl
          have := ih (step s (Op.getTagging region role))
            (by rw [hc.2.2.1]; exact h1) (by rw [hc.2.2.2.1]; exact h2)
            (by rw [hc.2.1]; exact h3)
          simpa [List.mem_cons] using this
      | getASG region role =>
          have hc := step_get_core s (Op.getASG region role) rfl
          have := ih (step s (Op.getASG region role))
            (by rw [hc.2.2.1]; exact h1) (by rw [hc.2.2.2.1]; exact h2)
            (by rw [hc.2.1]; exact h3)
          simpa [List.mem_cons] using this
      | getEC2 region role =>
          have hc := step_get_core s (Op.getEC2 region role) rfl
          have := ih (step s (Op.getEC2 region role))
            (by rw [hc.2.2.1]; exact h1) (by rw [hc.2.2.2.1]; exact h2)
            (by rw [hc.2.1]; exact h3)
          simpa [List.mem_cons] using this
      | getDMS region role =>
          have hc := step_get_core s (Op.getDMS region role) rfl
          have := ih (step s (Op.getDMS region role))
            (by rw [hc.2.2.1]; exact h1) (by rw [hc.2.2.2.1]; exact h2)
            (by rw [hc.2.1]; exact h3)
          simpa [List.mem_cons] using this
      | getAPIGateway region role =>
          have hc := step_get_core s (Op.getAPIGateway region role) rfl
          have := ih (step s (Op.getAPIGateway region role))
            (by rw [hc.2.2.1]; exact h1) (by rw [hc.2.2.2.1]; exact h2)
            (by rw [hc.2.1]; exact h3)
          simpa [List.mem_cons] using this

/-- C2 counterexample: a Get call before any Refresh does not create the
session handle, contradicting "created lazily on the first Refresh or the
first Get call, whichever happens first" — the first Get has happened, a
client has been built and stored, yet no session-construction call was made
and the handle is still absent. -/
theorem session_not_created_by_first_get :
    (run cacheX [Op.getSTS roleX]).session = none ∧
    (run cacheX [Op.getSTS roleX]).sessionCalls = 0 ∧
    (lookupA (run cacheX [Op.getSTS roleX]).stscache roleX).isSome = true ∧
    (run cacheX [Op.getSTS roleX]).builderCalls = 1 := by decide

/-- C2 (amended): across any call sequence, at most one session handle is
ever created; it is created exactly by the first non-no-op Refresh (Get
calls never create it), and it is never recreated or reset afterwards —
in particular Clear and every accessor leave it unchanged, and its value is
the same single handle forever. -/
theorem session_single_creation (conf : ScrapeConf) (fips debug : Bool)
    (ops : List Op) :
    (run (newSessionCache conf fips debug) ops).session =
      (if Op.refresh ∈ ops then some { id := 0 } else none) ∧
    (run (newSessionCache conf fips debug) ops).sessionCalls =
      (if Op.refresh ∈ ops then 1 else 0) :=
  run_session_fresh (newSessionCache conf fips debug) ops rfl rfl rfl

/-- C5 (code bug): the lazy `GetTagging` and `GetASG` paths pass the
cache's fips flag where the builder expects its verbose-logging argument,
so on a cache built with fips = true and debug = false the lazily built
tagging and autoscaling clients come out with debug logging enabled, while
the same clients built by Refresh honour the constructed debug flag. -/
theorem lazy_tagging_asg_debug_flag_divergence :
    cacheF.fips = true ∧ cacheF.debug = false ∧
    (getTagging cacheF "us-east-1" roleX).map
      (fun p => p.1.config.logDebug) = some true ∧
    (getASG cacheF "us-east-1" roleX).map
      (fun p => p.1.config.logDebug) = some true ∧
    (lookup2 (refresh cacheF).clients roleX "us-east-1").map
      (fun e => e.tagging.map (fun c => c.config.logDebug)) =
        some (some false) ∧
    (lookup2 (refresh cacheF).clients roleX "us-east-1").map
      (fun e => e.asg.map (fun c => c.config.logDebug)) =
        some (some false) := by decide

/-- C10: the tagging and autoscaling builders never apply a FIPS endpoint
override — they take no compliance flag at all, so their configs keep
default endpoint resolution — whereas the identity, metrics, compute,
migration and gateway builders, given the compliance flag, substitute the
region into a fixed FIPS URL template. -/
theorem tagging_asg_never_fips (sess : Option Session) (region : String)
    (role : Role) (debug : Bool) :
    (createTagSession sess region role debug).config.endpoint = none ∧
    (createASGSession sess region role debug).config.endpoint = none ∧
    (createStsSession sess role region true debug).config.endpoint =
      some ("https://sts-fips." ++ region ++ ".amazonaws.com") ∧
    (createCloudwatchSession sess region role true debug).config.endpoint =
      some ("https://monitoring-fips." ++ region ++ ".amazonaws.com") ∧
    (createEC2Session sess region role true debug).config.endpoint =
      some ("https://ec2-fips." ++ region ++ ".amazonaws.com") ∧
    (createDMSSession sess region role true debug).config.endpoint =
      some ("https://dms-fips." ++ region ++ ".amazonaws.com") ∧
    (createAPIGatewaySession sess region role true debug).config.endpoint =
      some ("https://apigateway-fips." ++ region ++ ".amazonaws.com") := by
  unfold createTagSession createASGSession createStsSession
    createCloudwatchSession createEC2Session createDMSSession
    createAPIGatewaySession setSTSCreds
  refine ⟨?_, ?_, ?_, ?_, ?_, ?_, ?_⟩ <;> split_ifs <;>
    first | rfl | simp_all

/-- C4: for a key in the declared key space, every accessor either returns
the stored client with the cache unchanged (non-empty slot) or builds
exactly one client from the shared session handle and the role's credential
configuration, stores it in that slot, and returns it; a declared key never
yields a missing result. -/
theorem getters_serve_declared_keys (s : SessionCache) (region : String)
    (role : Role) (entry : ClientCache) (stsv : Option Client)
    (hc : lookup2 s.clients role region = some entry)
    (hs : lookupA s.stscache role = some stsv) :
    (getCloudwatch s region role).isSome = true ∧
    (getTagging s region role).isSome = true ∧
    (getASG s region role).isSome = true ∧
    (getEC2 s region role).isSome = true ∧
    (getDMS s region role).isSome = true ∧
    (getAPIGateway s region role).isSome = true ∧
    (∀ e, lookup2 (insert2 s.clients role region e) role region = some e) ∧
    (∀ c, stsv = some c → getSTS s role = (c, s)) ∧
    (stsv = none →
      getSTS s role =
        (createStsSession s.session role s.stsRegion s.fips s.debug,
         { s with
           stscache :=
             insertA s.stscache role
               (some (createStsSession s.session role s.stsRegion s.fips
                 s.debug))
           builderCalls := s.builderCalls + 1 })) ∧
    (∀ c, entry.cloudwatch = some c →
      getCloudwatch s region role = some (c, s)) ∧
    (entry.cloudwatch = none →
      getCloudwatch s region role =
        some (createCloudwatchSession s.session region role s.fips s.debug,
          { s with
            clients :=
              insert2 s.clients role region
                { entry with
                  cloudwatch :=
                    some (createCloudwatchSession s.session region role s.fips
                      s.debug) }
            builderCalls := s.builderCalls + 1 })) ∧
    (∀ c, entry.tagging = some c → getTagging s region role = some (c, s)) ∧
    (entry.tagging = none →
      getTagging s region role =
        some (createTagSession s.session region role s.fips,
          { s with
            clients :=
              insert2 s.clients role region
                { entry with
                  tagging :=
                    some (createTagSession s.session region role s.fips) }
            builderCalls := s.builderCalls + 1 })) ∧
    (∀ c, entry.asg = some c → getASG s region role = some (c, s)) ∧
    (entry.asg = none →
      getASG s region role =
        some (createASGSession s.session region role s.fips,
          { s with
            clients :=
              insert2 s.clients role region
                { entry with
                  asg := some (createASGSession s.session region role s.fips) }
            builderCalls := s.builderCalls + 1 })) ∧
    (∀ c, entry.ec2 = some c → getEC2 s region role = some (c, s)) ∧
    (entry.ec2 = none →
      getEC2 s region role =
        some (createEC2Session s.session region role s.fips s.debug,
          { s with
            clients :=
              insert2 s.clients role region
                { entry with
                  ec2 := some (createEC2Session s.session region role s.fips
                    s.debug) }
            builderCalls := s.builderCalls + 1 })) ∧
    (∀ c, entry.dms = some c → getDMS s region role = some (c, s)) ∧
    (entry.dms = none →
      getDMS s region role =
        some (createDMSSession s.session region role s.fips s.debug,
          { s with
            clients :=
              insert2 s.clients role region
                { entry with
                  dms := some (createDMSSession s.session region role s.fips
                    s.debug) }
            builderCalls := s.builderCalls + 1 })) ∧
    (∀ c, entry.apiGateway = some c →
      getAPIGateway s region role = some (c, s)) ∧
    (entry.apiGateway = none →
      getAPIGateway s region role =
        some (createAPIGatewaySession s.session region role s.fips s.debug,
          { s with
            clients :=
              insert2 s.clients role region
                { entry with
                  apiGateway :=
                    some (createAPIGatewaySession s.session region role s.fips
                      s.debug) }
            builderCalls := s.builderCalls + 1 })) := by
  have hrow : (lookupA s.clients role).isSome = true := by
    unfold lookup2 at hc
    cases hl : lookupA s.clients role with
    | none => rw [hl] at hc; exact absurd hc (by simp)
    | some m => rfl
  refine ⟨?_, ?_, ?_, ?_, ?_, ?_, ?_, ?_, ?_, ?_, ?_, ?_, ?_, ?_, ?_, ?_,
    ?_, ?_, ?_, ?_, ?_⟩
  · cases hcw : entry.cloudwatch with
    | some c => rw [getCloudwatch_cached s region role entry c hc hcw]; rfl
    | none => rw [getCloudwatch_build s region role entry hc hcw]; rfl
  · cases hcw : entry.tagging with
    | some c => rw [getTagging_cached s region role entry c hc hcw]; rfl
    | none => rw [getTagging_build s region role entry hc hcw]; rfl
  · cases hcw : entry.asg with
    | some c => rw [getASG_cached s region role entry c hc hcw]; rfl
    | none => rw [getASG_build s region role entry hc hcw]; rfl
  · cases hcw : entry.ec2 with
    | some c => rw [getEC2_cached s region role entry c hc hcw]; rfl
    | none => rw [getEC2_build s region role entry hc hcw]; rfl
  · cases hcw : entry.dms with
    | some c => rw [getDMS_cached s region role entry c hc hcw]; rfl
    | none => rw [getDMS_build s region role entry hc hcw]; rfl
  · cases hcw : entry.apiGateway with
    | some c => rw [getAPIGateway_cached s region role entry c hc hcw]; rfl
    | none => rw [getAPIGateway_build s region role entry hc hcw]; rfl
  · intro e
    rw [lookup2_insert2]
    rw [if_pos ⟨rfl, rfl, hrow⟩]
  · intro c h
    subst h
    exact getSTS_cached s role c hs
  · intro h
    subst h
    exact getSTS_build_nil s role hs
  · intro c h
    exact getCloudwatch_cached s region role entry c hc h
  · intro h
    exact getCloudwatch_build s region role entry hc h
  · intro c h
    exact getTagging_cached s region role entry c hc h
  · intro h
    exact getTagging_build s region role entry hc h
  · intro c h
    exact getASG_cached s region role entry c hc h
  · intro h
    exact getASG_build s region role entry hc h
  · intro c h
    exact getEC2_cached s region role entry c hc h
  · intro h
    exact getEC2_build s region role entry hc h
  · intro c h
    exact getDMS_cached s region role entry c hc h
  · intro h
    exact getDMS_build s region role entry hc h
  · intro c h
    exact getAPIGateway_cached s region role entry c hc h
  · intro h
    exact getAPIGateway_build s region role entry hc h

/-- Witness for C4 at the concrete cache `cacheX` and its declared key
(roleX, us-east-1): no accessor result is missing. -/
theorem getters_serve_declared_keys_witness :
    (getCloudwatch cacheX "us-east-1" roleX).isSome = true ∧
    (getTagging cacheX "us-east-1" roleX).isSome = true ∧
    (getASG cacheX "us-east-1" roleX).isSome = true ∧
    (getEC2 cacheX "us-east-1" roleX).isSome = true ∧
    (getDMS cacheX "us-east-1" roleX).isSome = true ∧
    (getAPIGateway cacheX "us-east-1" roleX).isSome = true := by
  have h := getters_serve_declared_keys cacheX "us-east-1" roleX {} none
    (by decide) (by decide)
  exact ⟨h.1, h.2.1, h.2.2.1, h.2.2.2.1, h.2.2.2.2.1, h.2.2.2.2.2.1⟩

theorem getSTS_clients (s : SessionCache) (role : Role) :
    (getSTS s role).2.clients = s.clients := by
  unfold getSTS
  split <;> rfl

/-- No operation ever adds, removes, or re-marks a (role, region) key of the
clients map: the key set and the static-only flags are fixed at
construction. -/
theorem step_clients_shape (s : SessionCache) (op : Op) (r : Role)
    (g : String) :
    (lookup2 (step s op).clients r g).map ClientCache.onlyStatic =
      (lookup2 s.clients r g).map ClientCache.onlyStatic := by
  cases op with
  | refresh =>
      show (lookup2 (refresh s).clients r g).map _ = _
      by_cases hr : s.refreshed
      · rw [refresh_of_refreshed s hr]
      · rw [lookup2_refresh s (by simpa using hr) r g]
        cases lookup2 s.clients r g <;> simp [refreshEntry_onlyStatic]
  | clear =>
      show (lookup2 (clear s).clients r g).map _ = _
      by_cases hcl : s.cleared
      · rw [clear_of_cleared s hcl]
      · rw [lookup2_clear s (by simpa using hcl) r g]
        cases lookup2 s.clients r g <;> simp [wipeEntry_onlyStatic]
  | getSTS role =>
      show (lookup2 (getSTS s role).2.clients r g).map _ = _
      rw [getSTS_clients s role]
  | getCloudwatch region role =>
      cases hm : lookup2 s.clients role region with
      | none => simp [step, getCloudwatch_missing s region role hm]
      | some entry =>
          cases hcw : entry.cloudwatch with
          | some c => simp [step, getCloudwatch_cached s region role entry c hm hcw]
          | none =>
              simp only [step, getCloudwatch_build s region role entry hm hcw]
              rw [lookup2_insert2]
              split_ifs with hif
              · obtain ⟨hr1, hg1, _⟩ := hif
                subst hr1
                subst hg1
                rw [hm]
                rfl
              · rfl
  | getTagging region role =>
      cases hm : lookup2 s.clients role region with
      | none => simp [step, getTagging_missing s region role hm]
      | some entry =>
          cases hcw : entry.tagging with
          | some c => simp [step, getTagging_cached s region role entry c hm hcw]
          | none =>
              simp only [step, getTagging_build s region role entry hm hcw]
              rw [lookup2_insert2]
              split_ifs with hif
              · obtain ⟨hr1, hg1, _⟩ := hif
                subst hr1
                subst hg1
                rw [hm]
                rfl
              · rfl
  | getASG region role =>
      cases hm : lookup2 s.clients role region with
      | none => simp [step, getASG_missing s region role hm]
      | some entry =>
          cases hcw : entry.asg with
          | some c => simp [step, getASG_cached s region role entry c hm hcw]
          | none =>
              simp only [step, getASG_build s region role entry hm hcw]
              rw [lookup2_insert2]
              split_ifs with hif
              · obtain ⟨hr1, hg1, _⟩ := hif
                subst hr1
                subst hg1
                rw [hm]
                rfl
              · rfl
  | getEC2 region role =>
      cases hm : lookup2 s.clients role region with
      | none => simp [step, getEC2_missing s region role hm]
      | some entry =>
          cases hcw : entry.ec2 with
          | some c => simp [step, getEC2_cached s region role entry c hm hcw]
          | none =>
              simp only [step, getEC2_build s region role entry hm hcw]
              rw [lookup2_insert2]
              split_ifs with hif
              · obtain ⟨hr1, hg1, _⟩ := hif
                subst hr1
                subst hg1
                rw [hm]
                rfl
              · rfl
  | getDMS region role =>
      cases hm : lookup2 s.clients role region with
      | none => simp [step, getDMS_missing s region role hm]
      | some entry =>
          cases hcw : entry.dms with
          | some c => simp [step, getDMS_cached s region role entry c hm hcw]
          | none =>
              simp only [step, getDMS_build s region role entry hm hcw]
              rw [lookup2_insert2]
              split_ifs with hif
              · obtain ⟨hr1, hg1, _⟩ := hif
                subst hr1
                subst hg1
                rw [hm]
                rfl
              · rfl
  | getAPIGateway region role =>
      cases hm : lookup2 s.clients role region with
      | none => simp [step, getAPIGateway_missing s region role hm]
      | some entry =>
          cases hcw : entry.apiGateway with
          | some c =>
              simp [step, getAPIGateway_cached s region role entry c hm hcw]
          | none =>
              simp only [step, getAPIGateway_build s region role entry hm hcw]
              rw [lookup2_insert2]
              split_ifs with hif
              · obtain ⟨hr1, hg1, _⟩ := hif
                subst hr1
                subst hg1
                rw [hm]
                rfl
              · rfl

/-- C3 counterexample: GetSTS called with a role outside the declared key
space does not fail loudly — it silently adds the role as a new key to the
sts map and builds a client for it, so Get can add new keys. -/
theorem getSTS_silently_extends_key_space :
    lookupA cacheX.stscache roleZ = none ∧
    (lookupA (getSTS cacheX roleZ).2.stscache roleZ).isSome = true ∧
    (getSTS cacheX roleZ).2.builderCalls = 1 := by decide

/-- C3 (amended): for a (role, region) key outside the declared key space
every region-keyed accessor panics (nil dereference) without creating any
state, and no operation ever adds a key to the clients map; but GetSTS on
an undeclared role does not fail loudly: it silently inserts the role into
the sts map and builds a client for it. -/
theorem undeclared_key_handling (s : SessionCache) (role : Role)
    (region : String) (op : Op)
    (h1 : lookup2 s.clients role region = none)
    (h2 : lookupA s.stscache role = none) :
    getCloudwatch s region role = none ∧
    getTagging s region role = none ∧
    getASG s region role = none ∧
    getEC2 s region role = none ∧
    getDMS s region role = none ∧
    getAPIGateway s region role = none ∧
    lookup2 (step s op).clients role region = none ∧
    (lookupA (getSTS s role).2.stscache role).isSome = true := by
  refine ⟨getCloudwatch_missing s region role h1,
    getTagging_missing s region role h1, getASG_missing s region role h1,
    getEC2_missing s region role h1, getDMS_missing s region role h1,
    getAPIGateway_missing s region role h1, ?_, ?_⟩
  · have hshape := step_clients_shape s op role region
    rw [h1] at hshape
    cases hres : lookup2 (step s op).clients role region with
    | none => rfl
    | some e => rw [hres] at hshape; exact absurd hshape (by simp)
  · rw [getSTS_build_missing s role h2]
    show (lookupA (insertA s.stscache role _) role).isSome = true
    rw [isSome_lookupA_insertA]
    simp

/-- Witness for C3 (amended) at the concrete cache `cacheX` and the
undeclared key (roleZ, sa-east-1). -/
theorem undeclared_key_handling_witness :
    getCloudwatch cacheX "sa-east-1" roleZ = none ∧
    getTagging cacheX "sa-east-1" roleZ = none ∧
    lookup2 (step cacheX (Op.getEC2 "sa-east-1" roleZ)).clients roleZ
      "sa-east-1" = none ∧
    (lookupA (getSTS cacheX roleZ).2.stscache roleZ).isSome = true := by
  have h := undeclared_key_handling cacheX roleZ "sa-east-1"
    (Op.getEC2 "sa-east-1" roleZ) (by decide) (by decide)
  exact ⟨h.1, h.2.1, h.2.2.2.2.2.2.1, h.2.2.2.2.2.2.2⟩

/-! ### The key space as a function of the reachable (role, region) sets -/

/-- All roles named by a list of jobs. -/
def jobRoles : List Job → List Role
  | [] => []
  | j :: rest => j.roles ++ jobRoles rest

/-- The (role, region) pairs of one job. -/
def pairsOf : List Role → List String → List (Role × String)
  | [], _ => []
  | r :: rest, regions => regions.map (fun g => (r, g)) ++ pairsOf rest regions

/-- All (role, region) pairs reachable from a list of jobs. -/
def jobPairs : List Job → List (Role × String)
  | [] => []
  | j :: rest => pairsOf j.roles j.regions ++ jobPairs rest

theorem pairsOf_mem (roles : List Role) (regions : List String) (r : Role)
    (g : String) :
    (r, g) ∈ pairsOf roles regions ↔ r ∈ roles ∧ g ∈ regions := by
  induction roles with
  | nil => simp [pairsOf]
  | cons r0 rest ih =>
      simp only [pairsOf, List.mem_append, List.mem_map, ih, List.mem_cons]
      constructor
      · rintro (⟨a, ha, heq⟩ | ⟨h1, h2⟩)
        · cases heq
          exact ⟨Or.inl rfl, ha⟩
        · exact ⟨Or.inr h1, h2⟩
      · rintro ⟨h1 | h1, h2⟩
        · subst h1
          exact Or.inl ⟨g, h2, rfl⟩
        · exact Or.inr ⟨h1, h2⟩

theorem jobPairs_mem (js : List Job) (r : Role) (g : String) :
    (r, g) ∈ jobPairs js ↔ ∃ j ∈ js, r ∈ j.roles ∧ g ∈ j.regions := by
  induction js with
  | nil => simp [jobPairs]
  | cons j rest ih =>
      simp [jobPairs, List.mem_append, pairsOf_mem, ih, List.mem_cons,
        exists_eq_or_imp]

theorem jobRoles_mem (js : List Job) (r : Role) :
    r ∈ jobRoles js ↔ ∃ j ∈ js, r ∈ j.roles := by
  induction js with
  | nil => simp [jobRoles]
  | cons j rest ih =>
      simp [jobRoles, List.mem_append, ih]

theorem ensureStsRole_isSome (sts : List (Role × Option Client)) (role : Role)
    (r : Role) :
    (lookupA (ensureStsRole sts role) r).isSome =
      ((lookupA sts r).isSome || decide (r = role)) := by
  unfold ensureStsRole
  split_ifs with h
  · by_cases hr : r = role
    · subst hr; simp [h]
    · simp [hr]
  · rw [isSome_lookupA_insertA]

theorem ensureRoleRow_isSome (rc : List (Role × List (String × ClientCache)))
    (role : Role) (r : Role) :
    (lookupA (ensureRoleRow rc role) r).isSome =
      ((lookupA rc r).isSome || decide (r = role)) := by
  unfold ensureRoleRow
  split_ifs with h
  · by_cases hr : r = role
    · subst hr; simp [h]
    · simp [hr]
  · rw [isSome_lookupA_insertA]

theorem ensureRoleRow_lookup2 (rc : List (Role × List (String × ClientCache)))
    (role : Role) (r : Role) (g : String) :
    lookup2 (ensureRoleRow rc role) r g = lookup2 rc r g := by
  unfold ensureRoleRow
  split_ifs with h
  · rfl
  · unfold lookup2
    rw [lookupA_insertA]
    by_cases hr : r = role
    · subst hr
      rw [if_pos rfl]
      cases hx : lookupA rc r with
      | none => rfl
      | some m => rw [hx] at h; exact (h rfl).elim
    · rw [if_neg hr]

theorem dregions_rows (regions : List String)
    (rc : List (Role × List (String × ClientCache))) (role : Role)
    (r : Role) :
    (lookupA
      (regions.foldl (fun rc region => insert2 rc role region {}) rc)
      r).isSome = (lookupA rc r).isSome := by
  induction regions generalizing rc with
  | nil => rfl
  | cons g0 rest ih =>
      rw [List.foldl_cons, ih, isSome_lookupA_insert2]

theorem dregions_lookup (regions : List String)
    (rc : List (Role × List (String × ClientCache))) (role : Role)
    (hrow : (lookupA rc role).isSome = true) (r : Role) (g : String) :
    lookup2 (regions.foldl (fun rc region => insert2 rc role region {}) rc)
      r g =
      if r = role ∧ g ∈ regions then some {} else lookup2 rc r g := by
  induction regions generalizing rc with
  | nil => simp
  | cons g0 rest ih =>
      have hrow2 : (lookupA (insert2 rc role g0 {}) role).isSome = true := by
        rw [isSome_lookupA_insert2]; exact hrow
      rw [List.foldl_cons, ih (insert2 rc role g0 {}) hrow2,
        lookup2_insert2]
      by_cases hr : r = role
      · subst hr
        by_cases hg0 : g = g0
        · subst hg0
          by_cases hrest : g ∈ rest <;>
            simp [hrest, hrow, List.mem_cons]
        · by_cases hrest : g ∈ rest <;>
            simp [hg0, hrest, List.mem_cons]
      · simp [hr]

theorem discoveryStep_sts (acc : List (Role × Option Client) ×
    List (Role × List (String × ClientCache))) (job : Job) (r : Role) :
    (lookupA (discoveryStep acc job).1 r).isSome =
      ((lookupA acc.1 r).isSome || decide (r ∈ job.roles)) := by
  cases job with
  | mk roles regions =>
      show (lookupA (roles.foldl (fun acc role =>
        (ensureStsRole acc.1 role,
         regions.foldl (fun rc region => insert2 rc role region {})
           (ensureRoleRow acc.2 role))) acc).1 r).isSome = _
      induction roles generalizing acc with
      | nil => simp
      | cons role0 rest ih =>
          rw [List.foldl_cons, ih]
          have hb : (lookupA ((fun acc role =>
              (ensureStsRole acc.1 role,
               regions.foldl (fun rc region => insert2 rc role region {})
                 (ensureRoleRow acc.2 role))) acc role0).1 r).isSome =
              ((lookupA acc.1 r).isSome || decide (r = role0)) :=
            ensureStsRole_isSome acc.1 role0 r
          rw [hb]
          by_cases hr0 : r = role0 <;> by_cases hrest : r ∈ rest <;>
            simp [hr0, hrest, List.mem_cons]

theorem discoveryStep_clients (acc : List (Role × Option Client) ×
    List (Role × List (String × ClientCache))) (job : Job) (r : Role)
    (g : String) :
    lookup2 (discoveryStep acc job).2 r g =
      if r ∈ job.roles ∧ g ∈ job.regions then some {}
      else lookup2 acc.2 r g := by
  cases job with
  | mk roles regions =>
      show lookup2 (roles.foldl (fun acc role =>
        (ensureStsRole acc.1 role,
         regions.foldl (fun rc region => insert2 rc role region {})
           (ensureRoleRow acc.2 role))) acc).2 r g = _
      induction roles generalizing acc with
      | nil => simp
      | cons role0 rest ih =>
          rw [List.foldl_cons, ih]
          have hrow : (lookupA (ensureRoleRow acc.2 role0) role0).isSome =
              true := by
            rw [ensureRoleRow_isSome]
            simp
          have hb : lookup2 ((fun acc role =>
              (ensureStsRole acc.1 role,
               regions.foldl (fun rc region => insert2 rc role region {})
                 (ensureRoleRow acc.2 role))) acc role0).2 r g =
              if r = role0 ∧ g ∈ regions then some {}
              else lookup2 acc.2 r g := by
            have h1 := dregions_lookup regions (ensureRoleRow acc.2 role0)
              role0 hrow r g
            rw [ensureRoleRow_lookup2] at h1
            exact h1
          rw [hb]
          by_cases hr0 : r = role0 <;> by_cases hrest : r ∈ rest <;>
            by_cases hg : g ∈ regions <;>
            simp [hr0, hrest, hg, List.mem_cons]

theorem dfold_sts (js : List Job) (acc : List (Role × Option Client) ×
    List (Role × List (String × ClientCache))) (r : Role) :
    (lookupA (js.foldl discoveryStep acc).1 r).isSome =
      ((lookupA acc.1 r).isSome || decide (r ∈ jobRoles js)) := by
  induction js generalizing acc with
  | nil => simp [jobRoles]
  | cons j rest ih =>
      rw [List.foldl_cons, ih, discoveryStep_sts]
      by_cases h1 : r ∈ j.roles <;> by_cases h2 : r ∈ jobRoles rest <;>
        simp [h1, h2, jobRoles, List.mem_append]

theorem dfold_clients (js : List Job) (acc : List (Role × Option Client) ×
    List (Role × List (String × ClientCache))) (r : Role) (g : String) :
    lookup2 (js.foldl discoveryStep acc).2 r g =
      if (r, g) ∈ jobPairs js then some {} else lookup2 acc.2 r g := by
  induction js generalizing acc with
  | nil => simp [jobPairs]
  | cons j rest ih =>
      rw [List.foldl_cons, ih, discoveryStep_clients]
      by_cases h1 : r ∈ j.roles ∧ g ∈ j.regions <;>
        by_cases h2 : (r, g) ∈ jobPairs rest <;>
        simp [h1, h2, jobPairs, List.mem_append, pairsOf_mem]

theorem sregions_lookup (regions : List String)
    (rc : List (Role × List (String × ClientCache))) (role : Role)
    (hrow : (lookupA rc role).isSome = true) (r : Role) (g : String) :
    lookup2 (regions.foldl (fun rc region =>
      if (lookup2 rc role region).isSome then rc
      else insert2 rc role region { onlyStatic := true }) rc) r g =
      if r = role ∧ g ∈ regions ∧ lookup2 rc role g = none then
        some { onlyStatic := true }
      else lookup2 rc r g := by
  induction regions generalizing rc with
  | nil => simp
  | cons g0 rest ih =>
      rw [List.foldl_cons]
      by_cases h0 : (lookup2 rc role g0).isSome
      · rw [if_pos h0]
        rw [ih rc hrow]
        have h0nn : ¬(lookup2 rc role g0 = none) := by
          intro hx
          rw [hx] at h0
          simp at h0
        by_cases hr : r = role
        · subst hr
          by_cases hg0 : g = g0
          · subst hg0
            simp [h0nn, List.mem_cons]
          · by_cases hrest : g ∈ rest <;>
              by_cases hnone : lookup2 rc r g = none <;>
              simp [hg0, hrest, hnone, List.mem_cons]
        · simp [hr]
      · have h0n : lookup2 rc role g0 = none := by
          cases hx : lookup2 rc role g0 with
          | none => rfl
          | some v => rw [hx] at h0; exact (h0 rfl).elim
        rw [if_neg h0]
        have hrow2 : (lookupA (insert2 rc role g0 { onlyStatic := true })
            role).isSome = true := by
          rw [isSome_lookupA_insert2]
          exact hrow
        rw [ih _ hrow2]
        simp only [lookup2_insert2]
        by_cases hr : r = role
        · subst hr
          by_cases hg0 : g = g0
          · subst hg0
            simp [hrow, h0n, List.mem_cons]
          · by_cases hrest : g ∈ rest <;>
              by_cases hnone : lookup2 rc r g = none <;>
              simp [hg0, hrest, hnone, hrow, List.mem_cons]
        · simp [hr]

theorem staticStep_sts (acc : List (Role × Option Client) ×
    List (Role × List (String × ClientCache))) (job : Job) (r : Role) :
    (lookupA (staticStep acc job).1 r).isSome =
      ((lookupA acc.1 r).isSome || decide (r ∈ job.roles)) := by
  cases job with
  | mk roles regions =>
      show (lookupA (roles.foldl (fun acc role =>
        (ensureStsRole acc.1 role,
         regions.foldl (fun rc region =>
           if (lookup2 rc role region).isSome then rc
           else insert2 rc role region { onlyStatic := true })
           (ensureRoleRow acc.2 role))) acc).1 r).isSome = _
      induction roles generalizing acc with
      | nil => simp
      | cons role0 rest ih =>
          rw [List.foldl_cons, ih]
          have hb : (lookupA ((fun acc role =>
              (ensureStsRole acc.1 role,
               regions.foldl (fun rc region =>
                 if (lookup2 rc role region).isSome then rc
                 else insert2 rc role region { onlyStatic := true })
                 (ensureRoleRow acc.2 role))) acc role0).1 r).isSome =
              ((lookupA acc.1 r).isSome || decide (r = role0)) :=
            ensureStsRole_isSome acc.1 role0 r
          rw [hb]
          by_cases hr0 : r = role0 <;> by_cases hrest : r ∈ rest <;>
            simp [hr0, hrest, List.mem_cons]

theorem staticStep_clients (acc : List (Role × Option Client) ×
    List (Role × List (String × ClientCache))) (job : Job) (r : Role)
    (g : String) :
    lookup2 (staticStep acc job).2 r g =
      if r ∈ job.roles ∧ g ∈ job.regions ∧ lookup2 acc.2 r g = none then
        some { onlyStatic := true }
      else lookup2 acc.2 r g := by
  cases job with
  | mk roles regions =>
      show lookup2 (roles.foldl (fun acc role =>
        (ensureStsRole acc.1 role,
         regions.foldl (fun rc region =>
           if (lookup2 rc role region).isSome then rc
           else insert2 rc role region { onlyStatic := true })
           (ensureRoleRow acc.2 role))) acc).2 r g = _
      induction roles generalizing acc with
      | nil => simp
      | cons role0 rest ih =>
          rw [List.foldl_cons, ih]
          have hrow : (lookupA (ensureRoleRow acc.2 role0) role0).isSome =
              true := by
            rw [ensureRoleRow_isSome]
            simp
          have hb : ∀ r' g', lookup2 ((fun acc role =>
              (ensureStsRole acc.1 role,
               regions.foldl (fun rc region =>
                 if (lookup2 rc role region).isSome then rc
                 else insert2 rc role region { onlyStatic := true })
                 (ensureRoleRow acc.2 role))) acc role0).2 r' g' =
              if r' = role0 ∧ g' ∈ regions ∧ lookup2 acc.2 role0 g' = none
              then some { onlyStatic := true }
              else lookup2 acc.2 r' g' := by
            intro r' g'
            have h1 := sregions_lookup regions (ensureRoleRow acc.2 role0)
              role0 hrow r' g'
            rw [ensureRoleRow_lookup2, ensureRoleRow_lookup2] at h1
            exact h1
          rw [hb r g]
          by_cases hr0 : r = role0
          · subst hr0
            by_cases hg : g ∈ regions
            · by_cases hnone : lookup2 acc.2 r g = none
              · -- first job role writes the entry; the rest see it non-nil
                have hval : (if r = r ∧ g ∈ regions ∧
                    lookup2 acc.2 r g = none
                    then some { onlyStatic := true : ClientCache }
                    else lookup2 acc.2 r g) =
                    some { onlyStatic := true } := by
                  simp [hg, hnone]
                by_cases hrest : r ∈ rest <;>
                  simp [hg, hnone, hrest, List.mem_cons, hval]
              · by_cases hrest : r ∈ rest <;>
                  simp [hg, hnone, hrest, List.mem_cons]
            · by_cases hrest : r ∈ rest <;>
                simp [hg, hrest, List.mem_cons]
          · by_cases hrest : r ∈ rest <;>
              simp [hr0, hrest, List.mem_cons]

theorem sfold_sts (js : List Job) (acc : List (Role × Option Client) ×
    List (Role × List (String × ClientCache))) (r : Role) :
    (lookupA (js.foldl staticStep acc).1 r).isSome =
      ((lookupA acc.1 r).isSome || decide (r ∈ jobRoles js)) := by
  induction js generalizing acc with
  | nil => simp [jobRoles]
  | cons j rest ih =>
      rw [List.foldl_cons, ih, staticStep_sts]
      by_cases h1 : r ∈ j.roles <;> by_cases h2 : r ∈ jobRoles rest <;>
        simp [h1, h2, jobRoles, List.mem_append]

theorem sfold_clients (js : List Job) (acc : List (Role × Option Client) ×
    List (Role × List (String × ClientCache))) (r : Role) (g : String) :
    lookup2 (js.foldl staticStep acc).2 r g =
      if (r, g) ∈ jobPairs js ∧ lookup2 acc.2 r g = none then
        some { onlyStatic := true }
      else lookup2 acc.2 r g := by
  induction js generalizing acc with
  | nil => simp [jobPairs]
  | cons j rest ih =>
      rw [List.foldl_cons, ih, staticStep_clients]
      by_cases h1 : r ∈ j.roles ∧ g ∈ j.regions
      · by_cases hnone : lookup2 acc.2 r g = none
        · by_cases h2 : (r, g) ∈ jobPairs rest <;>
            simp [h1, h2, hnone, jobPairs, List.mem_append, pairsOf_mem]
        · by_cases h2 : (r, g) ∈ jobPairs rest <;>
            simp [h1, h2, hnone, jobPairs, List.mem_append, pairsOf_mem]
      · by_cases h2 : (r, g) ∈ jobPairs rest <;>
          by_cases hnone : lookup2 acc.2 r g = none <;>
          simp [h1, h2, hnone, jobPairs, List.mem_append, pairsOf_mem]

/-- The clients map the Topology Builder produces, characterized purely by
membership in the reachable pair sets. -/
theorem newSessionCache_clients_lookup (conf : ScrapeConf)
    (fips debug : Bool) (r : Role) (g : String) :
    lookup2 (newSessionCache conf fips debug).clients r g =
      (if (r, g) ∈ jobPairs conf.discoveryJobs then some {}
       else if (r, g) ∈ jobPairs conf.staticJobs then
         some { onlyStatic := true }
       else none) := by
  have hcl : (newSessionCache conf fips debug).clients =
      (conf.staticJobs.foldl staticStep
        (conf.discoveryJobs.foldl discoveryStep ([], []))).2 := rfl
  rw [hcl, sfold_clients, dfold_clients]
  have hnil : lookup2 (([], []) :
      List (Role × Option Client) ×
      List (Role × List (String × ClientCache))).2 r g = none := rfl
  rw [hnil]
  by_cases h1 : (r, g) ∈ jobPairs conf.discoveryJobs <;>
    by_cases h2 : (r, g) ∈ jobPairs conf.staticJobs <;>
    simp [h1, h2]

/-- The sts map key set the Topology Builder produces. -/
theorem newSessionCache_sts_isSome (conf : ScrapeConf) (fips debug : Bool)
    (r : Role) :
    (lookupA (newSessionCache conf fips debug).stscache r).isSome =
      (decide (r ∈ jobRoles conf.discoveryJobs) ||
       decide (r ∈ jobRoles conf.staticJobs)) := by
  have hsts : (newSessionCache conf fips debug).stscache =
      (conf.staticJobs.foldl staticStep
        (conf.discoveryJobs.foldl discoveryStep ([], []))).1 := rfl
  rw [hsts, sfold_sts, dfold_sts]
  rfl

/-- C9: the key space produced by the Topology Builder is order-independent
and depends only on the sets of reachable (role, region) pairs: the Role
keys are exactly the roles named by some job, a pair reachable from a
discovery job gets a full (non-static) empty entry even if it also appears
in a static job, a pair reachable only from static jobs gets a static-only
entry, and permuting the discovery or static job lists changes nothing. -/
theorem topology_order_independent (conf : ScrapeConf) (fips debug : Bool)
    (r : Role) (g : String) (d2 s2 : List Job)
    (hd : conf.discoveryJobs.Perm d2) (hs : conf.staticJobs.Perm s2) :
    lookup2 (newSessionCache conf fips debug).clients r g =
      (if (r, g) ∈ jobPairs conf.discoveryJobs then some {}
       else if (r, g) ∈ jobPairs conf.staticJobs then
         some { onlyStatic := true }
       else none) ∧
    (lookupA (newSessionCache conf fips debug).stscache r).isSome =
      (decide (r ∈ jobRoles conf.discoveryJobs) ||
       decide (r ∈ jobRoles conf.staticJobs)) ∧
    (∀ e, lookup2 (newSessionCache conf fips debug).clients r g = some e →
      (e.onlyStatic = true ↔
        ((r, g) ∈ jobPairs conf.staticJobs ∧
         (r, g) ∉ jobPairs conf.discoveryJobs))) ∧
    lookup2 (newSessionCache
        { stsRegion := conf.stsRegion, discoveryJobs := d2, staticJobs := s2 }
        fips debug).clients r g =
      lookup2 (newSessionCache conf fips debug).clients r g ∧
    (lookupA (newSessionCache
        { stsRegion := conf.stsRegion, discoveryJobs := d2, staticJobs := s2 }
        fips debug).stscache r).isSome =
      (lookupA (newSessionCache conf fips debug).stscache r).isSome := by
  have hdp : ∀ (r' : Role) (g' : String),
      (r', g') ∈ jobPairs d2 ↔ (r', g') ∈ jobPairs conf.discoveryJobs := by
    intro r' g'
    rw [jobPairs_mem, jobPairs_mem]
    constructor
    · rintro ⟨j, hj, h⟩
      exact ⟨j, hd.mem_iff.mpr hj, h⟩
    · rintro ⟨j, hj, h⟩
      exact ⟨j, hd.mem_iff.mp hj, h⟩
  have hsp : ∀ (r' : Role) (g' : String),
      (r', g') ∈ jobPairs s2 ↔ (r', g') ∈ jobPairs conf.staticJobs := by
    intro r' g'
    rw [jobPairs_mem, jobPairs_mem]
    constructor
    · rintro ⟨j, hj, h⟩
      exact ⟨j, hs.mem_iff.mpr hj, h⟩
    · rintro ⟨j, hj, h⟩
      exact ⟨j, hs.mem_iff.mp hj, h⟩
  have hdr : ∀ r' : Role, r' ∈ jobRoles d2 ↔ r' ∈ jobRoles conf.discoveryJobs := by
    intro r'
    rw [jobRoles_mem, jobRoles_mem]
    constructor
    · rintro ⟨j, hj, h⟩
      exact ⟨j, hd.mem_iff.mpr hj, h⟩
    · rintro ⟨j, hj, h⟩
      exact ⟨j, hd.mem_iff.mp hj, h⟩
  have hsr : ∀ r' : Role, r' ∈ jobRoles s2 ↔ r' ∈ jobRoles conf.staticJobs := by
    intro r'
    rw [jobRoles_mem, jobRoles_mem]
    constructor
    · rintro ⟨j, hj, h⟩
      exact ⟨j, hs.mem_iff.mpr hj, h⟩
    · rintro ⟨j, hj, h⟩
      exact ⟨j, hs.mem_iff.mp hj, h⟩
  refine ⟨newSessionCache_clients_lookup conf fips debug r g,
    newSessionCache_sts_isSome conf fips debug r, ?_, ?_, ?_⟩
  · intro e he
    rw [newSessionCache_clients_lookup] at he
    by_cases h1 : (r, g) ∈ jobPairs conf.discoveryJobs
    · rw [if_pos h1] at he
      cases he
      simp [h1]
    · rw [if_neg h1] at he
      by_cases h2 : (r, g) ∈ jobPairs conf.staticJobs
      · rw [if_pos h2] at he
        cases he
        simp [h1, h2]
      · rw [if_neg h2] at he
        exact absurd he (by simp)
  · rw [newSessionCache_clients_lookup, newSessionCache_clients_lookup]
    simp only [hdp r g, hsp r g]
  · rw [newSessionCache_sts_isSome, newSessionCache_sts_isSome]
    have h1 := hdr r
    have h2 := hsr r
    by_cases hx : r ∈ jobRoles conf.discoveryJobs <;>
      by_cases hy : r ∈ jobRoles conf.staticJobs <;>
      simp [hx, hy, h1, h2]

/-- Witness for C9: a two-job topology gives the same key space after
swapping the discovery jobs, and the shared pair keeps its full
(non-static) entry. -/
theorem topology_order_independent_witness :
    lookup2 (newSessionCache
      { stsRegion := ""
        discoveryJobs :=
          [{ roles := [roleY], regions := ["b"] },
           { roles := [roleX], regions := ["a"] }]
        staticJobs := [{ roles := [roleX], regions := ["a", "c"] }] }
      false false).clients roleX "a" =
    lookup2 (newSessionCache
      { stsRegion := ""
        discoveryJobs :=
          [{ roles := [roleX], regions := ["a"] },
           { roles := [roleY], regions := ["b"] }]
        staticJobs := [{ roles := [roleX], regions := ["a", "c"] }] }
      false false).clients roleX "a" ∧
    lookup2 (newSessionCache
      { stsRegion := ""
        discoveryJobs :=
          [{ roles := [roleX], regions := ["a"] },
           { roles := [roleY], regions := ["b"] }]
        staticJobs := [{ roles := [roleX], regions := ["a", "c"] }] }
      false false).clients roleX "a" = some {} := by
  have h := topology_order_independent
    { stsRegion := ""
      discoveryJobs :=
        [{ roles := [roleX], regions := ["a"] },
         { roles := [roleY], regions := ["b"] }]
      staticJobs := [{ roles := [roleX], regions := ["a", "c"] }] }
    false false roleX "a"
    [{ roles := [roleY], regions := ["b"] },
     { roles := [roleX], regions := ["a"] }]
    [{ roles := [roleX], regions := ["a", "c"] }]
    (List.Perm.swap _ _ _) (List.Perm.refl _)
  refine ⟨h.2.2.2.1, ?_⟩
  rw [h.1]
  simp [jobPairs, pairsOf, List.mem_append]

/-! ### Static-only entries -/

/-- Whether the clients map marks (role, region) static-only. -/
def staticOnlyAt (clients : List (Role × List (String × ClientCache)))
    (role : Role) (region : String) : Bool :=
  match lookup2 clients role region with
  | some e => e.onlyStatic
  | none => false

/-- An operation respects the static-only reduction when it is not one of
the five reduced-set accessors aimed at a static-only pair. -/
def opSafe (clients : List (Role × List (String × ClientCache))) :
    Op → Bool
  | .getTagging region role => !staticOnlyAt clients role region
  | .getASG region role => !staticOnlyAt clients role region
  | .getEC2 region role => !staticOnlyAt clients role region
  | .getDMS region role => !staticOnlyAt clients role region
  | .getAPIGateway region role => !staticOnlyAt clients role region
  | _ => true

/-- A static-only entry has its five reduced-away slots empty. -/
def entryStaticOK (e : ClientCache) : Prop :=
  e.onlyStatic = true →
    e.tagging = none ∧ e.asg = none ∧ e.ec2 = none ∧ e.dms = none ∧
    e.apiGateway = none

/-- Every static-only entry of the map has its reduced-away slots empty. -/
def staticInv (clients : List (Role × List (String × ClientCache))) : Prop :=
  ∀ r g e, lookup2 clients r g = some e → entryStaticOK e

theorem staticOnlyAt_step (s : SessionCache) (op : Op) (r : Role)
    (g : String) :
    staticOnlyAt (step s op).clients r g = staticOnlyAt s.clients r g := by
  have h := step_clients_shape s op r g
  unfold staticOnlyAt
  cases h1 : lookup2 (step s op).clients r g with
  | none =>
      rw [h1] at h
      cases h2 : lookup2 s.clients r g with
      | none => rfl
      | some e => rw [h2] at h; exact absurd h (by simp)
  | some e =>
      rw [h1] at h
      cases h2 : lookup2 s.clients r g with
      | none => rw [h2] at h; exact absurd h (by simp)
      | some e2 =>
          rw [h2] at h
          simpa using h

theorem opSafe_step (s : SessionCache) (op op2 : Op) :
    opSafe (step s op).clients op2 = opSafe s.clients op2 := by
  cases op2 <;> simp [opSafe, staticOnlyAt_step]

/-- Applying `refreshEntry` to a static-only entry only touches the metrics slot. -/
theorem refreshEntry_static (sess : Session) (fips debug : Bool) (r : Role)
    (g : String) (e : ClientCache) (h : e.onlyStatic = true) :
    refreshEntry sess fips debug r g e =
      { e with
        cloudwatch :=
          some (createCloudwatchSession (some sess) g r fips debug) } := by
  unfold refreshEntry
  simp [h]

theorem staticInv_step (s : SessionCache) (op : Op)
    (hinv : staticInv s.clients) (hsafe : opSafe s.clients op = true) :
    staticInv (step s op).clients := by
  cases op with
  | refresh =>
      by_cases hr : s.refreshed
      · show staticInv (refresh s).clients
        rw [refresh_of_refreshed s hr]
        exact hinv
      · intro r g e he
        rw [show (step s Op.refresh).clients = (refresh s).clients from rfl,
          lookup2_refresh s (by simpa using hr) r g] at he
        cases hm : lookup2 s.clients r g with
        | none => rw [hm] at he; exact absurd he (by simp)
        | some e0 =>
            rw [hm] at he
            simp only [Option.map] at he
            cases he
            intro hstat
            rw [refreshEntry_onlyStatic] at hstat
            rw [refreshEntry_static _ _ _ _ _ _ hstat]
            exact (hinv r g e0 hm) hstat
  | clear =>
      by_cases hcl : s.cleared
      · show staticInv (clear s).clients
        rw [clear_of_cleared s hcl]
        exact hinv
      · intro r g e he
        rw [show (step s Op.clear).clients = (clear s).clients from rfl,
          lookup2_clear s (by simpa using hcl) r g] at he
        cases hm : lookup2 s.clients r g with
        | none => rw [hm] at he; exact absurd he (by simp)
        | some e0 =>
            rw [hm] at he
            simp only [Option.map] at he
            cases he
            intro _
            exact ⟨rfl, rfl, rfl, rfl, rfl⟩
  | getSTS role =>
      show staticInv (getSTS s role).2.clients
      rw [getSTS_clients s role]
      exact hinv
  | getCloudwatch region role =>
      cases hm : lookup2 s.clients role region with
      | none =>
          have : step s (Op.getCloudwatch region role) = s := by
            simp [step, getCloudwatch_missing s region role hm]
          rw [this]
          exact hinv
      | some entry =>
          cases hcw : entry.cloudwatch with
          | some c =>
              have : step s (Op.getCloudwatch region role) = s := by
                simp [step, getCloudwatch_cached s region role entry c hm hcw]
              rw [this]
              exact hinv
          | none =>
              intro r g e he
              rw [show step s (Op.getCloudwatch region role) =
                  (match getCloudwatch s region role with
                   | some p => p.2
                   | none => s) from rfl,
                getCloudwatch_build s region role entry hm hcw] at he
              simp only at he
              rw [lookup2_insert2] at he
              split_ifs at he with hif
              · obtain ⟨h1, h2, _⟩ := hif
                subst h1
                subst h2
                cases he
                intro hstat
                simp only at hstat
                have h3 := hinv r g entry hm hstat
                exact ⟨h3.1, h3.2.1, h3.2.2.1, h3.2.2.2.1, h3.2.2.2.2⟩
              · exact hinv r g e he
  | getTagging region role =>
      cases hm : lookup2 s.clients role region with
      | none =>
          have : step s (Op.getTagging region role) = s := by
            simp [step, getTagging_missing s region role hm]
          rw [this]
          exact hinv
      | some entry =>
          cases hcw : entry.tagging with
          | some c =>
              have : step s (Op.getTagging region role) = s := by
                simp [step, getTagging_cached s region role entry c hm hcw]
              rw [this]
              exact hinv
          | none =>
              have hstatic : entry.onlyStatic = false := by
                simp only [opSafe, staticOnlyAt, hm] at hsafe
                simpa using hsafe
              intro r g e he
              rw [show step s (Op.getTagging region role) =
                  (match getTagging s region role with
                   | some p => p.2
                   | none => s) from rfl,
                getTagging_build s region role entry hm hcw] at he
              simp only at he
              rw [lookup2_insert2] at he
              split_ifs at he with hif
              · obtain ⟨h1, h2, _⟩ := hif
                subst h1
                subst h2
                cases he
                intro hstat
                simp only at hstat
                rw [hstatic] at hstat
                exact absurd hstat (by simp)
              · exact hinv r g e he
  | getASG region role =>
      cases hm : lookup2 s.clients role region with
      | none =>
          have : step s (Op.getASG region role) = s := by
            simp [step, getASG_missing s region role hm]
          rw [this]
          exact hinv
      | some entry =>
          cases hcw : entry.asg with
          | some c =>
              have : step s (Op.getASG region role) = s := by
                simp [step, getASG_cached s region role entry c hm hcw]
              rw [this]
              exact hinv
          | none =>
              have hstatic : entry.onlyStatic = false := by
                simp only [opSafe, staticOnlyAt, hm] at hsafe
                simpa using hsafe
              intro r g e he
              rw [show step s (Op.getASG region role) =
                  (match getASG s region role with
                   | some p => p.2
                   | none => s) from rfl,
                getASG_build s region role entry hm hcw] at he
              simp only at he
              rw [lookup2_insert2] at he
              split_ifs at he with hif
              · obtain ⟨h1, h2, _⟩ := hif
                subst h1
                subst h2
                cases he
                intro hstat
                simp only at hstat
                rw [hstatic] at hstat
                exact absurd hstat (by simp)
              · exact hinv r g e he
  | getEC2 region role =>
      cases hm : lookup2 s.clients role region with
      | none =>
          have : step s (Op.getEC2 region role) = s := by
            simp [step, getEC2_missing s region role hm]
          rw [this]
          exact hinv
      | some entry =>
          cases hcw : entry.ec2 with
          | some c =>
              have : step s (Op.getEC2 region role) = s := by
                simp [step, getEC2_cached s region role entry c hm hcw]
              rw [this]
              exact hinv
          | none =>
              have hstatic : entry.onlyStatic = false := by
                simp only [opSafe, staticOnlyAt, hm] at hsafe
                simpa using hsafe
              intro r g e he
              rw [show step s (Op.getEC2 region role) =
                  (match getEC2 s region role with
                   | some p => p.2
                   | none => s) from rfl,
                getEC2_build s region role entry hm hcw] at he
              simp only at he
              rw [lookup2_insert2] at he
              split_ifs at he with hif
              · obtain ⟨h1, h2, _⟩ := hif
                subst h1
                subst h2
                cases he
                intro hstat
                simp only at hstat
                rw [hstatic] at hstat
                exact absurd hstat (by simp)
              · exact hinv r g e he
  | getDMS region role =>
      cases hm : lookup2 s.clients role region with
      | none =>
          have : step s (Op.getDMS region role) = s := by
            simp [step, getDMS_missing s region role hm]
          rw [this]
          exact hinv
      | some entry =>
          cases hcw : entry.dms with
          | some c =>
              have : step s (Op.getDMS region role) = s := by
                simp [step, getDMS_cached s region role entry c hm hcw]
              rw [this]
              exact hinv
          | none =>
              have hstatic : entry.onlyStatic = false := by
                simp only [opSafe, staticOnlyAt, hm] at hsafe
                simpa using hsafe
              intro r g e he
              rw [show step s (Op.getDMS region role) =
                  (match getDMS s region role with
                   | some p => p.2
                   | none => s) from rfl,
                getDMS_build s region role entry hm hcw] at he
              simp only at he
              rw [lookup2_insert2] at he
              split_ifs at he with hif
              · obtain ⟨h1, h2, _⟩ := hif
                subst h1
                subst h2
                cases he
                intro hstat
                simp only at hstat
                rw [hstatic] at hstat
                exact absurd hstat (by simp)
              · exact hinv r g e he
  | getAPIGateway region role =>
      cases hm : lookup2 s.clients role region with
      | none =>
          have : step s (Op.getAPIGateway region role) = s := by
            simp [step, getAPIGateway_missing s region role hm]
          rw [this]
          exact hinv
      | some entry =>
          cases hcw : entry.apiGateway with
          | some c =>
              have : step s (Op.getAPIGateway region role) = s := by
                simp [step, getAPIGateway_cached s region role entry c hm hcw]
              rw [this]
              exact hinv
          | none =>
              have hstatic : entry.onlyStatic = false := by
                simp only [opSafe, staticOnlyAt, hm] at hsafe
                simpa using hsafe
              intro r g e he
              rw [show step s (Op.getAPIGateway region role) =
                  (match getAPIGateway s region role with
                   | some p => p.2
                   | none => s) from rfl,
                getAPIGateway_build s region role entry hm hcw] at he
              simp only at he
              rw [lookup2_insert2] at he
              split_ifs at he with hif
              · obtain ⟨h1, h2, _⟩ := hif
                subst h1
                subst h2
                cases he
                intro hstat
                simp only at hstat
                rw [hstatic] at hstat
                exact absurd hstat (by simp)
              · exact hinv r g e he

theorem staticInv_run (s : SessionCache) (ops : List Op)
    (hinv : staticInv s.clients)
    (hsafe : ∀ op ∈ ops, opSafe s.clients op = true) :
    staticInv (run s ops).clients := by
  induction ops generalizing s with
  | nil => exact hinv
  | cons op rest ih =>
      have h1 : staticInv (step s op).clients :=
        staticInv_step s op hinv (hsafe op (List.mem_cons_self op rest))
      have h2 : ∀ op2 ∈ rest, opSafe (step s op).clients op2 = true := by
        intro op2 hmem
        rw [opSafe_step]
        exact hsafe op2 (List.mem_cons_of_mem op hmem)
      exact ih (step s op) h1 h2

theorem newSessionCache_staticInv (conf : ScrapeConf) (fips debug : Bool) :
    staticInv (newSessionCache conf fips debug).clients := by
  intro r g e he
  rw [newSessionCache_clients_lookup] at he
  split_ifs at he
  · cases he
    intro _
    exact ⟨rfl, rfl, rfl, rfl, rfl⟩
  · cases he
    intro _
    exact ⟨rfl, rfl, rfl, rfl, rfl⟩

/-- C1 counterexample: a reachable state (one lazy GetTagging call on the
static-only pair) has a static-only entry with its tagging slot populated,
so the invariant as claimed fails once accessor calls are allowed to target
static-only pairs. -/
theorem static_only_populated_by_lazy_get :
    staticOnlyAt (run cacheX [Op.getTagging "eu-west-1" roleY]).clients
      roleY "eu-west-1" = true ∧
    (lookup2 (run cacheX [Op.getTagging "eu-west-1" roleY]).clients
      roleY "eu-west-1").map (fun e => e.tagging.isSome) = some true := by
  decide

/-- C1 (amended): in every state reachable by Refresh, Clear, and accessor
calls in which no tagging/autoscaling/compute/migration/gateway accessor is
ever invoked on a static-only pair, every static-only entry has those five
slots empty — at most its metrics slot is populated. -/
theorem static_only_slots_empty (conf : ScrapeConf) (fips debug : Bool)
    (ops : List Op)
    (hsafe : ∀ op ∈ ops,
      opSafe (newSessionCache conf fips debug).clients op = true)
    (r : Role) (g : String)
    (hstatic : staticOnlyAt
      (run (newSessionCache conf fips debug) ops).clients r g = true) :
    (lookup2 (run (newSessionCache conf fips debug) ops).clients r g).map
      ClientCache.tagging = some none ∧
    (lookup2 (run (newSessionCache conf fips debug) ops).clients r g).map
      ClientCache.asg = some none ∧
    (lookup2 (run (newSessionCache conf fips debug) ops).clients r g).map
      ClientCache.ec2 = some none ∧
    (lookup2 (run (newSessionCache conf fips debug) ops).clients r g).map
      ClientCache.dms = some none ∧
    (lookup2 (run (newSessionCache conf fips debug) ops).clients r g).map
      ClientCache.apiGateway = some none := by
  have hinv := staticInv_run (newSessionCache conf fips debug) ops
    (newSessionCache_staticInv conf fips debug) hsafe
  unfold staticOnlyAt at hstatic
  cases hm : lookup2 (run (newSessionCache conf fips debug) ops).clients r g
    with
  | none => rw [hm] at hstatic; exact absurd hstatic (by simp)
  | some e =>
      rw [hm] at hstatic
      have h := hinv r g e hm (by simpa using hstatic)
      simp [h.1, h.2.1, h.2.2.1, h.2.2.2.1, h.2.2.2.2]

/-- Witness for C1 (amended): after Refresh, Clear, and a metrics Get on the
static-only pair of `confX`, that pair's tagging and compute slots read
empty. -/
theorem static_only_slots_empty_witness :
    (lookup2 (run (newSessionCache confX false false)
      [Op.refresh, Op.clear, Op.getCloudwatch "eu-west-1" roleY]).clients
      roleY "eu-west-1").map ClientCache.tagging = some none ∧
    (lookup2 (run (newSessionCache confX false false)
      [Op.refresh, Op.clear, Op.getCloudwatch "eu-west-1" roleY]).clients
      roleY "eu-west-1").map ClientCache.ec2 = some none := by
  have h := static_only_slots_empty confX false false
    [Op.refresh, Op.clear, Op.getCloudwatch "eu-west-1" roleY]
    (by decide) roleY "eu-west-1" (by decide)
  exact ⟨h.1, h.2.2.1⟩

end Exporter
